import Mathlib

/-!
A verification development for the odata-service-writer package.

The source file `src/index.ts` (the orchestrator: `ensureExists`,
`findProjectFiles`, `extendBackendMiddleware`, `getEDMXAnnotationPaths`,
`writeLocalServiceFiles`, `writeEDMXServiceFiles`,
`generateMockserverMiddlewareBasedOnUi5MockYaml`, `generate`, `remove`)
is embedded faithfully.  The collaborating modules that are not part of the
given sources (`data.ts`, `updates.ts`, `delete.ts`, the `ui5-config`
document model and the mockserver config writer) are modelled from the
specification; each such definition carries a doc comment starting with
`Modelled from the spec:`.

Modelling conventions:
* a filesystem path is a list of components (`path.join a b` is list append,
  `path.sep`-splitting a base path is the identity);
* the staged in-memory filesystem is an association list from paths to
  structured file contents; the structured contents stand for the serialized
  bytes, which is sound because serialization of the JSON/YAML document
  models is out of scope and deterministic;
* external pure string transformations (XML pretty printing, URI component
  encoding) are abstracted as deterministic injective maps (the identity);
* thrown errors are modelled with `Except`; every operation that can throw
  returns the error together with the filesystem as staged at the moment of
  the throw, mirroring the shared mutable editor of the source.
-/

namespace OdataServiceWriter

/-- A filesystem path, as a list of components. -/
abbrev FsPath := List String

/-- The `type` field of a manifest data source. -/
inductive DSType where
  | odata
  | odataAnnot
deriving DecidableEq, Repr

/-- The `settings` object of a manifest data source. -/
structure DSSettings where
  localUri : Option String
  annotations : List String
  odataVersion : Option String
deriving DecidableEq, Repr

/-- One entry of the manifest data-source table. -/
structure DataSource where
  type : DSType
  uri : String
  settings : DSSettings
deriving DecidableEq, Repr

/-- The application manifest (`webapp/manifest.json`): the id under
`sap.app`, the ordered data-source table under `sap.app.dataSources` and the
model bindings under `sap.ui5.models` (model name to data-source name). -/
structure Manifest where
  appId : Option String
  dataSources : List (String × DataSource)
  models : List (String × String)
deriving DecidableEq, Repr

/-- A backend entry of the fiori-tools-proxy middleware; also the shape of
the `previewSettings` of a service descriptor (all fields optional). -/
structure BackendEntry where
  path : Option String
  url : Option String
  client : Option String
  destination : Option String
  apiHub : Option Bool
  scp : Option Bool
  prefixPath : Option String
deriving DecidableEq, Repr

/-- A backend entry with no field set. -/
def emptyBackend : BackendEntry :=
  ⟨none, none, none, none, none, none, none⟩

/-- The fiori-tools-proxy middleware block of a UI5 YAML file. -/
structure ProxyMiddleware where
  ignoreCertError : Bool
  backend : List BackendEntry
deriving DecidableEq, Repr

/-- A service entry of the sap-fe-mockserver middleware. -/
structure MockService where
  serviceName : String
  servicePath : String
deriving DecidableEq, Repr

/-- The sap-fe-mockserver middleware block: service entries and annotation
url paths. -/
structure MockMiddleware where
  services : List MockService
  annotations : List String
deriving DecidableEq, Repr

/-- A UI5 YAML configuration document, seen through the accessors of the
YAML document model: the two middleware blocks the engine touches. -/
structure UI5Yaml where
  proxy : Option ProxyMiddleware
  mock : Option MockMiddleware
deriving DecidableEq, Repr

/-- The package marker file, reduced to the flags the engine sets. -/
structure PackageJson where
  ui5App : Bool
  mockTools : Bool
deriving DecidableEq, Repr

/-- Structured file contents standing for the serialized bytes of a staged
file. -/
inductive FileContent where
  | text (s : String)
  | manifest (m : Manifest)
  | yaml (y : UI5Yaml)
  | packageJson (p : PackageJson)
deriving DecidableEq, Repr

/-- The staged virtual filesystem: an association list from paths to file
contents. -/
abbrev Fs := List (FsPath × FileContent)

/-- `fs.exists` of the mem-fs editor. -/
def fsExists (fs : Fs) (p : FsPath) : Bool :=
  fs.any (fun e => decide (e.1 = p))

/-- `fs.read` of the mem-fs editor, as a partial lookup. -/
def fsRead (fs : Fs) (p : FsPath) : Option FileContent :=
  (fs.find? (fun e => decide (e.1 = p))).map (fun e => e.2)

/-- `fs.write` of the mem-fs editor: replace in place, or append. -/
def fsWrite (fs : Fs) (p : FsPath) (c : FileContent) : Fs :=
  if fsExists fs p then
    fs.map (fun e => if e.1 = p then (p, c) else e)
  else
    fs ++ [(p, c)]

/-- `fs.delete` of the mem-fs editor. -/
def fsDelete (fs : Fs) (p : FsPath) : Fs :=
  fs.filter (fun e => !(decide (e.1 = p)))

/-! ### String utilities

Structurally recursive replacements for the library string functions the
source uses (`split`, `endsWith`, `startsWith`), so that concrete instances
reduce inside the kernel. -/

/-- Splitting a string at `/` characters, accumulator form. -/
def splitSlashAux : List Char → List Char → List String
  | [], cur => [String.mk cur.reverse]
  | c :: rest, cur =>
    if c = '/' then String.mk cur.reverse :: splitSlashAux rest []
    else splitSlashAux rest (c :: cur)

/-- `s.split('/')` of the source. -/
def splitSlash (s : String) : List String :=
  splitSlashAux s.data []

/-- Whether a string ends with the `/` character. -/
def strEndsWithSlash (s : String) : Bool :=
  match s.data.getLast? with
  | some c => decide (c = '/')
  | none => false

/-- List prefix test on characters. -/
def charsIsPfx : List Char → List Char → Bool
  | [], _ => true
  | _ :: _, [] => false
  | a :: as, b :: bs => decide (a = b) && charsIsPfx as bs

/-- `a.startsWith(b)` of the source, i.e. `b` is a prefix of `a`. -/
def strStartsWith (s pfx : String) : Bool :=
  charsIsPfx pfx.data s.data

/-! ### Project file discovery (`findProjectFiles` of `src/index.ts`) -/

/-- The optional locations of package.json, ui5.yaml, ui5-local.yaml and
ui5-mock.yaml (`ProjectPaths` of `src/types.ts`). -/
structure ProjectPaths where
  packageJson : Option FsPath := none
  ui5Yaml : Option FsPath := none
  ui5LocalYaml : Option FsPath := none
  ui5MockYaml : Option FsPath := none
deriving DecidableEq, Repr

/-- The loop guard of `findProjectFiles`: all four files located. -/
def allFound (f : ProjectPaths) : Bool :=
  f.packageJson.isSome && f.ui5Yaml.isSome && f.ui5LocalYaml.isSome &&
    f.ui5MockYaml.isSome

/-- One iteration of the `findProjectFiles` loop body: probe the current
level for each of the four files that is still missing. -/
def checkLevel (fs : Fs) (path : FsPath) (f : ProjectPaths) : ProjectPaths :=
  let f := if f.packageJson.isNone && fsExists fs (path ++ ["package.json"]) then
    { f with packageJson := some (path ++ ["package.json"]) } else f
  let f := if f.ui5Yaml.isNone && fsExists fs (path ++ ["ui5.yaml"]) then
    { f with ui5Yaml := some (path ++ ["ui5.yaml"]) } else f
  let f := if f.ui5LocalYaml.isNone && fsExists fs (path ++ ["ui5-local.yaml"]) then
    { f with ui5LocalYaml := some (path ++ ["ui5-local.yaml"]) } else f
  let f := if f.ui5MockYaml.isNone && fsExists fs (path ++ ["ui5-mock.yaml"]) then
    { f with ui5MockYaml := some (path ++ ["ui5-mock.yaml"]) } else f
  f

/-- The `while` loop of `findProjectFiles`, driven by a fuel argument that
equals the number of remaining path components; the loop pops the last
component each iteration, so the fuel bounds it exactly. -/
def findAux (fs : Fs) : Nat → List String → ProjectPaths → ProjectPaths
  | 0, _, f => f
  | _ + 1, [], f => f
  | n + 1, parts@(_ :: _), f =>
    if allFound f then f
    else findAux fs n parts.dropLast (checkLevel fs parts f)

/-- `findProjectFiles` of `src/index.ts`: walk upward from the base path,
collecting the closest occurrence of each of the four project files. -/
def findProjectFiles (basePath : FsPath) (fs : Fs) : ProjectPaths :=
  findAux fs basePath.length basePath {}

/-! ### Errors -/

/-- The error codes of the YAML document model (`yamlErrorCode` of
ui5-config); `nodeNotFound` is the code thrown when an expected node such as
the proxy middleware block is absent. -/
inductive YamlErrorCode where
  | nodeNotFound
  | propertyNotFound
deriving DecidableEq, Repr

/-- An error thrown by a collaborator: either a structured `YAMLError` of
the document model (carrying a code and a message) or a plain error
carrying only a message. -/
inductive DocError where
  | yamlError (code : YamlErrorCode) (message : String)
  | otherError (message : String)
deriving DecidableEq, Repr

/-- The message of a thrown error (`error.message`). -/
def DocError.message : DocError → String
  | .yamlError _ m => m
  | .otherError m => m

/-- `error instanceof YAMLError && error.code === yamlErrorCode.nodeNotFound`
of `extendBackendMiddleware`. -/
def DocError.isNodeNotFound : DocError → Bool
  | .yamlError c _ => decide (c = YamlErrorCode.nodeNotFound)
  | .otherError _ => false

/-- The error taxonomy of the engine. -/
inductive GenError where
  | requiredProjectFileNotFound (path : String)
  | requiredProjectPropertyNotFound (property : String) (path : FsPath)
  | docError (e : DocError)
  | readError (path : FsPath)
deriving DecidableEq, Repr

/-! ### Service descriptor -/

/-- `ServiceType` of `src/types.ts`. -/
inductive ServiceType where
  | edmx
  | cds
deriving DecidableEq, Repr

/-- An EDMX annotation of the descriptor (`EdmxAnnotationsInfo`): the
backend technical name, an optional explicit name and the optional xml
payload.  The single-annotation and array forms of the source are both
represented as lists. -/
structure EdmxAnnot where
  name : Option String
  technicalName : String
  xml : Option String
deriving DecidableEq, Repr

/-- The OData service descriptor (`OdataService` of `src/types.ts`),
restricted to the fields the engine reads. -/
structure OdataService where
  name : Option String
  url : Option String
  path : Option String
  client : Option String
  destinationName : Option String
  model : Option String
  version : Option String
  metadata : Option String
  annotations : List EdmxAnnot
  localAnnotationsName : Option String
  previewSettings : Option BackendEntry
  ignoreCertError : Option Bool
  type : ServiceType
deriving DecidableEq, Repr

/-- The key under which an annotation appears in the manifest data-source
table: its explicit name, falling back to the technical name. -/
def annKey (a : EdmxAnnot) : String :=
  a.name.getD a.technicalName

/-- The name a nameless service resolves to downstream
(`service.name ?? 'mainService'` of `src/index.ts`). -/
def effectiveName (s : OdataService) : String :=
  s.name.getD "mainService"

/-! ### Descriptor enhancer (data.ts, not among the given sources) -/

/-- The keys of the manifest data-source table. -/
def dsKeys (m : Manifest) : List String :=
  m.dataSources.map (fun e => e.1)

/-- Reading the manifest for the enhancer: optional, since the enhancer
applies defaults from an absent manifest as well. -/
def readManifestOpt (basePath : FsPath) (fs : Fs) : Option Manifest :=
  match fsRead fs (basePath ++ ["webapp", "manifest.json"]) with
  | some (.manifest m) => some m
  | _ => none

/-- Modelled from the spec: rule 2 and rule 6 of the Descriptor Enhancer -
`path` is normalized to always end with `/`, and an absent `path` resolves
to `/` (never throws). -/
def normalizePath : Option String → String
  | none => "/"
  | some p => if strEndsWithSlash p then p else p ++ "/"

/-- Modelled from the spec: rule 3 of the Descriptor Enhancer - the default
`previewSettings.path` is derived by stripping the OData-specific path
segment from `path` (keeping only the first segment). -/
def previewPathSegment (p : String) : String :=
  match splitSlash p with
  | _ :: seg :: _ => "/" ++ seg
  | _ => "/"

/-- Modelled from the spec: rule 1 of the Descriptor Enhancer - an absent
`name` becomes `mainService` when the data-source table is empty (or no
manifest exists yet) and is otherwise left undefined, to be resolved
downstream by insertion order. -/
def defaultServiceName (mOpt : Option Manifest) (n : Option String) : Option String :=
  match n with
  | some v => some v
  | none =>
    match mOpt with
    | none => some "mainService"
    | some m => if m.dataSources.isEmpty then some "mainService" else none

/-- Modelled from the spec: rule 5 of the Descriptor Enhancer - `model`
defaults to the empty string unless a model already binds to an existing
data source of the same name, in which case that model name is reused. -/
def defaultServiceModel (mOpt : Option Manifest) (given : Option String)
    (svcName : String) : String :=
  match given with
  | some v => v
  | none =>
    match mOpt with
    | none => ""
    | some m =>
      match m.models.find? (fun e => decide (e.2 = svcName)) with
      | some e => e.1
      | none => ""

/-- Modelled from the spec: rule 4 of the Descriptor Enhancer - an
annotation whose name collides with an existing manifest key or with the
name of the service itself is deterministically suffixed with
`_Annotation`. -/
def renameAnnot (mOpt : Option Manifest) (svcName : String) (a : EdmxAnnot) :
    EdmxAnnot :=
  let k := annKey a
  let collide := decide (k = svcName) ||
    (match mOpt with
     | some m => (dsKeys m).any (fun x => decide (x = k))
     | none => false)
  if collide then { a with name := some (k ++ "_Annotation") } else a

/-- Modelled from the spec: rule 3 of the Descriptor Enhancer - the preview
settings are derived from `path`, `url`, `client` and `destination` unless
the caller supplied overrides; extra fields pass through unchanged. -/
def enhancedPreview (s : OdataService) (npath : String) : BackendEntry :=
  let g := s.previewSettings.getD emptyBackend
  { g with
    path := some (g.path.getD (previewPathSegment npath))
    url := some (g.url.getD (s.url.getD ""))
    client := match g.client with
      | some c => some c
      | none => s.client
    destination := match g.destination with
      | some d => some d
      | none => s.destinationName }

/-- Modelled from the spec: `enhanceData` of data.ts - normalizes and
defaults the descriptor in place using the current manifest state, applying
the rules of the Descriptor Enhancer in order. -/
def enhanceData (basePath : FsPath) (s : OdataService) (fs : Fs) : OdataService :=
  let mOpt := readManifestOpt basePath fs
  let npath := normalizePath s.path
  let name := defaultServiceName mOpt s.name
  let eff := name.getD "mainService"
  { s with
    path := some npath
    name := name
    model := some (defaultServiceModel mOpt s.model eff)
    annotations := s.annotations.map (renameAnnot mOpt eff)
    previewSettings := some (enhancedPreview s npath) }

/-! ### Association-list and upsert helpers -/

/-- Lookup of a data source by key. -/
def lookupDS (m : Manifest) (k : String) : Option DataSource :=
  (m.dataSources.find? (fun e => decide (e.1 = k))).map (fun e => e.2)

/-- Update-or-append for an association list: replace the entry with the
given key in place (preserving list position), or append a new one. -/
def upsertAssoc {α : Type} [DecidableEq α] (l : List (String × α)) (k : String)
    (v : α) : List (String × α) :=
  if l.any (fun e => decide (e.1 = k)) then
    l.map (fun e => if e.1 = k then (k, v) else e)
  else
    l ++ [(k, v)]

/-- `encodeURIComponent` of the source: an external injective encoding of a
technical name, abstracted as the identity map. -/
def encodeURIComponent (s : String) : String := s

/-- The fixed catalog-service uri under which a backend annotation is
registered in the manifest (the string literal of `getEDMXAnnotationPaths`
in `src/index.ts`). -/
def catalogUriOf (technicalName : String) : String :=
  "/sap/opu/odata/IWFND/CATALOGSERVICE;v=2/Annotations(TechnicalName=\x27" ++
    technicalName ++ "\x27,Version=\x270001\x27)/$value/"

/-- `getEDMXAnnotationPaths` of `src/index.ts`: the catalog-service url
path of every annotation of the descriptor. -/
def getEDMXAnnotationPaths (anns : List EdmxAnnot) : List String :=
  anns.map (fun a => catalogUriOf (encodeURIComponent a.technicalName))

/-! ### Manifest data-source merger (updates.ts, not among the given
sources) -/

/-- `getWebappPath` of project-access: the webapp root of the project,
which is `webapp` under the base path for the default layout. -/
def getWebappPath (basePath : FsPath) : FsPath :=
  basePath ++ ["webapp"]

/-- A manifest `localUri` is in the flat legacy layout when it points into
`localService/` directly, with no per-service subfolder. -/
def isFlatUri (u : String) : Bool :=
  match splitSlash u with
  | [d, _] => decide (d = "localService")
  | _ => false

/-- The namespaced rewrite of a flat `localUri`: the file moves into the
subfolder named after the service. -/
def namespacedUri (svcName : String) (u : String) : String :=
  match splitSlash u with
  | [d, f] => d ++ "/" ++ svcName ++ "/" ++ f
  | _ => u

/-- A manifest `localUri`, resolved against the webapp root. -/
def uriToPath (webapp : FsPath) (u : String) : FsPath :=
  webapp ++ splitSlash u

/-- Moving a staged file, as delete plus write; a missing source is left
alone. -/
def moveFile (fs : Fs) (src dst : FsPath) : Fs :=
  match fsRead fs src with
  | some c => fsWrite (fsDelete fs src) dst c
  | none => fs

/-- Modelled from the spec: one step of the flat-to-namespaced migration -
if the entry under the given key carries a flat `localUri`, rewrite it to
the namespaced equivalent and physically move the staged file. -/
def migrateOne (webapp : FsPath) (svcKey : String) (st : Manifest × Fs)
    (k : String) : Manifest × Fs :=
  let m := st.1
  let fs := st.2
  match lookupDS m k with
  | some ds =>
    match ds.settings.localUri with
    | some u =>
      if isFlatUri u then
        let nu := namespacedUri svcKey u
        let nv : DataSource :=
          { ds with settings := { ds.settings with localUri := some nu } }
        let m := { m with dataSources := upsertAssoc m.dataSources k nv }
        (m, moveFile fs (uriToPath webapp u) (uriToPath webapp nu))
      else (m, fs)
    | none => (m, fs)
  | none => (m, fs)

/-- The entries of type `OData` in the data-source table. -/
def odataEntries (m : Manifest) : List (String × DataSource) :=
  m.dataSources.filter (fun e => decide (e.2.type = DSType.odata))

/-- Modelled from the spec: the one-way flat-to-namespaced layout migration
of the Manifest Data-Source Merger - triggered exactly when the table holds
one `OData` service, a different service is about to be added and the
existing files are in the flat layout; the lone service and each of its
annotations are migrated. -/
def migrateFlatLayout (webapp : FsPath) (newName : String) (m : Manifest)
    (fs : Fs) : Manifest × Fs :=
  match odataEntries m with
  | [(k, ds)] =>
    if decide (k ≠ newName) then
      (k :: ds.settings.annotations).foldl (migrateOne webapp k) (m, fs)
    else (m, fs)
  | _ => (m, fs)

/-- Modelled from the spec: the merged data-source entry of the service
itself - `uri` is the (enhanced) path, `localUri` names the namespaced
metadata copy when live metadata is present, and annotation names are
appended to the preserved `settings.annotations` order when absent. -/
def serviceDataSource (s : OdataService) (name : String)
    (prev : Option DataSource) : DataSource :=
  let prevAnns := match prev with
    | some d => d.settings.annotations
    | none => []
  let newAnns := (s.annotations.map annKey).foldl
    (fun l k => if l.any (fun x => decide (x = k)) then l else l ++ [k]) prevAnns
  { type := DSType.odata
    uri := s.path.getD "/"
    settings :=
      { localUri := if s.metadata.isSome then
          some ("localService/" ++ name ++ "/metadata.xml") else none
        annotations := newAnns
        odataVersion := s.version } }

/-- Modelled from the spec: the merged `ODataAnnotation` entry of one
annotation of the service. -/
def annDataSource (name : String) (a : EdmxAnnot) : DataSource :=
  { type := DSType.odataAnnot
    uri := catalogUriOf (encodeURIComponent a.technicalName)
    settings :=
      { localUri := some ("localService/" ++ name ++ "/" ++ a.technicalName ++ ".xml")
        annotations := []
        odataVersion := none } }

/-- Modelled from the spec: the model binding of the Merger -
`sap.ui5.models[model] = dataSource: name`, left alone when already
present with that data source. -/
def bindModel (m : Manifest) (modelName svcName : String) : Manifest :=
  match m.models.find? (fun e => decide (e.1 = modelName)) with
  | some e =>
    if decide (e.2 = svcName) then m
    else { m with models := upsertAssoc m.models modelName svcName }
  | none => { m with models := m.models ++ [(modelName, svcName)] }

/-- Modelled from the spec: the pure manifest merge of the Merger, applied
after the migration - upsert the service entry, then its annotation
entries, then the model binding. -/
def mergedManifest (s : OdataService) (m : Manifest) : Manifest :=
  let name := effectiveName s
  let ds1 := upsertAssoc m.dataSources name (serviceDataSource s name (lookupDS m name))
  let m := { m with dataSources := ds1 }
  let m := s.annotations.foldl (fun m a =>
    { m with dataSources := upsertAssoc m.dataSources (annKey a) (annDataSource name a) }) m
  bindModel m (s.model.getD "") name

/-- Modelled from the spec: `updateManifest` of updates.ts - reads the
manifest, fails with `RequiredProjectPropertyNotFound` when `sap.app.id` is
missing (before any mutation), performs the layout migration when
triggered, then applies the pure merge and stages the result. -/
def updateManifest (basePath : FsPath) (s : OdataService) (fs : Fs) :
    Except GenError Fs :=
  let mp := getWebappPath basePath ++ ["manifest.json"]
  match fsRead fs mp with
  | some (.manifest m) =>
    if (m.appId.getD "") = "" then
      .error (.requiredProjectPropertyNotFound "sap.app.id" mp)
    else
      let st := migrateFlatLayout (getWebappPath basePath) (effectiveName s) m fs
      .ok (fsWrite st.2 mp (.manifest (mergedManifest s st.1)))
  | some _ => .error (.readError mp)
  | none => .error (.readError mp)

/-! ### Manifest data-source remover (delete.ts, not among the given
sources) -/

/-- A manifest annotation entry provided by the backend catalog service, as
opposed to a local annotation file: its uri points into the catalog
service.  Only such entries are deleted together with their service. -/
def isBackendAnnUri (u : String) : Bool :=
  strStartsWith u "/sap/opu/odata/IWFND/CATALOGSERVICE"

/-- Modelled from the spec: `deleteServiceFromManifest` of delete.ts - an
unknown service name is a no-op; for a known service, its own entry, every
backend annotation entry listed in its `settings.annotations` that no other
remaining service references, and every model binding to it are deleted. -/
def deleteServiceFromManifest (basePath : FsPath) (serviceName : String)
    (fs : Fs) : Fs :=
  let mp := getWebappPath basePath ++ ["manifest.json"]
  match fsRead fs mp with
  | some (.manifest m) =>
    match lookupDS m serviceName with
    | none => fs
    | some ds =>
      let others := m.dataSources.filter (fun e => !(decide (e.1 = serviceName)))
      let referenced := fun (a : String) => others.any (fun e =>
        decide (e.2.type = DSType.odata) &&
          e.2.settings.annotations.any (fun x => decide (x = a)))
      let remaining := others.filter (fun e =>
        !(ds.settings.annotations.any (fun a => decide (a = e.1)) &&
          isBackendAnnUri e.2.uri && !(referenced e.1)))
      let models := m.models.filter (fun e => !(decide (e.2 = serviceName)))
      fsWrite fs mp (.manifest { m with dataSources := remaining, models := models })
  | _ => fs

/-! ### YAML document model (ui5-config, not among the given sources) -/

/-- Update-or-append of a backend entry, keyed logically by `path`. -/
def upsertBackend (l : List BackendEntry) (b : BackendEntry) : List BackendEntry :=
  if l.any (fun e => decide (e.path = b.path)) then
    l.map (fun e => if e.path = b.path then b else e)
  else
    l ++ [b]

/-- Modelled from the spec: `addBackendToFioriToolsProxydMiddleware` of
ui5-config - find an existing backend entry with the same `path` and
replace it in place, or append; when the proxy middleware block itself is
absent, throw a `YAMLError` with code `nodeNotFound`. -/
def addBackendToFioriToolsProxydMiddleware (y : UI5Yaml) (b : BackendEntry) :
    Except DocError UI5Yaml :=
  match y.proxy with
  | none => .error (.yamlError .nodeNotFound "Node not found in the document")
  | some p => .ok { y with proxy := some { p with backend := upsertBackend p.backend b } }

/-- Modelled from the spec: `addFioriToolsProxydMiddleware` of ui5-config -
create the proxy middleware block with the given backend list. -/
def addFioriToolsProxydMiddleware (y : UI5Yaml) (backend : List BackendEntry)
    (ignoreCertError : Option Bool) : UI5Yaml :=
  { y with proxy := some ⟨ignoreCertError.getD false, backend⟩ }

/-- Modelled from the spec: `removeBackendFromFioriToolsProxydMiddleware`
of ui5-config - delete every backend entry whose `url` equals the given
url; a non-matching url, or an absent middleware block, is a no-op. -/
def removeBackendFromProxyMiddleware (y : UI5Yaml) (url : String) : UI5Yaml :=
  match y.proxy with
  | none => y
  | some p =>
    let p := { p with backend := p.backend.filter (fun e => !(decide (e.url = some url))) }
    { y with proxy := some p }

/-- Modelled from the spec: `removeServiceFromMockServerMiddleware` of
ui5-config - delete the mock service entries matching the given path and
the mock annotation entries matching any of the given url paths; absent
entries or an absent block are a no-op. -/
def removeServiceFromMockMiddleware (y : UI5Yaml) (path : String)
    (annPaths : List String) : UI5Yaml :=
  match y.mock with
  | none => y
  | some mm =>
    let services := mm.services.filter (fun e => !(decide (e.servicePath = path)))
    let anns := mm.annotations.filter (fun u => !(annPaths.any (fun x => decide (x = u))))
    { y with mock := some ⟨services, anns⟩ }

/-- `findCustomMiddleware('sap-fe-mockserver')` of the document model. -/
def findMockMiddleware (y : UI5Yaml) : Option MockMiddleware := y.mock

/-- `updateCustomMiddleware` of the document model, for the mockserver
block. -/
def updateMockMiddleware (y : UI5Yaml) (mm : MockMiddleware) : UI5Yaml :=
  { y with mock := some mm }

/-! ### Mockserver config writer (not among the given sources) -/

/-- Update-or-append of a mock service entry, keyed by `serviceName`. -/
def upsertMockService (l : List MockService) (e : MockService) : List MockService :=
  if l.any (fun x => decide (x.serviceName = e.serviceName)) then
    l.map (fun x => if x.serviceName = e.serviceName then e else x)
  else
    l ++ [e]

/-- Update-or-append of a mock annotation url path. -/
def upsertMockAnn (l : List String) (u : String) : List String :=
  if l.any (fun x => decide (x = u)) then l else l ++ [u]

/-- The mock service entry of the descriptor. -/
def mockServiceEntryOf (s : OdataService) : MockService :=
  ⟨effectiveName s, s.path.getD "/"⟩

/-- Modelled from the spec: the Mock Middleware Synchronizer upsert -
ensure the mockserver block exists, with the service entry keyed by
service name and one annotation entry per catalog url path. -/
def setMockMiddleware (y : UI5Yaml) (s : OdataService) : UI5Yaml :=
  let mm := y.mock.getD ⟨[], []⟩
  let mm := { mm with services := upsertMockService mm.services (mockServiceEntryOf s) }
  let mm := { mm with annotations :=
    (getEDMXAnnotationPaths s.annotations).foldl upsertMockAnn mm.annotations }
  { y with mock := some mm }

/-- Modelled from the spec: `generateMockserverConfig` of the mockserver
config writer - create `ui5-mock.yaml` next to the base path from the
existing mock config when present, else from `ui5.yaml`, and apply the mock
middleware upsert for the service. -/
def generateMockserverConfig (basePath : FsPath) (fs : Fs) (s : OdataService) : Fs :=
  let mockPath := basePath ++ ["ui5-mock.yaml"]
  let base : UI5Yaml :=
    match fsRead fs mockPath with
    | some (.yaml y) => y
    | _ =>
      match fsRead fs (basePath ++ ["ui5.yaml"]) with
      | some (.yaml y) => y
      | _ => ⟨none, none⟩
  fsWrite fs mockPath (.yaml (setMockMiddleware base s))

/-! ### CDS collaborators (not among the given sources, out of the spec
core) -/

/-- Modelled from the spec: `updateCdsFilesWithAnnotations` merges the
annotations of a CDS service into CDS source files; abstracted as one
staged write per annotation. -/
def updateCdsFilesWithAnnotations (fs : Fs) (anns : List EdmxAnnot) : Fs :=
  anns.foldl (fun fs a =>
    fsWrite fs ["cds", annKey a ++ ".cds"] (.text (a.xml.getD ""))) fs

/-- Modelled from the spec: `removeAnnotationsFromCDSFiles` strips the
annotations of a CDS service from CDS source files; abstracted as one
staged delete per annotation. -/
def removeCdsAnnotationsFromFiles (fs : Fs) (anns : List EdmxAnnot) : Fs :=
  anns.foldl (fun fs a => fsDelete fs ["cds", annKey a ++ ".cds"]) fs

/-! ### Remaining updates.ts and delete.ts collaborators -/

/-- `prettify-xml` of the source: an external deterministic XML formatter,
abstracted as the identity map. -/
def prettifyXml (s : String) : String := s

/-- Modelled from the spec: `updatePackageJson` of updates.ts - set the
idempotent this-is-a-UI5-app flag on `package.json`, and the mock tooling
flag when live metadata is present. -/
def updatePackageJson (p : FsPath) (fs : Fs) (hasMetadata : Bool) : Fs :=
  match fsRead fs p with
  | some (.packageJson pk) =>
    fsWrite fs p (.packageJson ⟨true, pk.mockTools || hasMetadata⟩)
  | _ => fs

/-- Modelled from the spec: `writeAnnotationXmlFiles` of updates.ts - write
the xml payload of every annotation that has one to the namespaced local
folder of the service. -/
def writeAnnotationXmlFiles (fs : Fs) (basePath : FsPath) (serviceName : String)
    (anns : List EdmxAnnot) : Fs :=
  anns.foldl (fun fs a =>
    match a.xml with
    | some x =>
      fsWrite fs (basePath ++ ["webapp", "localService", serviceName, a.technicalName ++ ".xml"])
        (.text (prettifyXml x))
    | none => fs) fs

/-- Modelled from the spec: `removeAnnotationXmlFiles` of delete.ts -
delete the staged local annotation files of the service. -/
def removeAnnotationXmlFiles (fs : Fs) (basePath : FsPath) (serviceName : String)
    (anns : List EdmxAnnot) : Fs :=
  anns.foldl (fun fs a =>
    let p := basePath ++ ["webapp", "localService", serviceName, a.technicalName ++ ".xml"]
    if fsExists fs p then fsDelete fs p else fs) fs

/-- The annotation-file template of the source tree, stamped with the
descriptor; an external templating step abstracted as a deterministic
rendering. -/
def annTemplateContent (s : OdataService) : String :=
  "local annotation file " ++ s.localAnnotationsName.getD ""

/-! ### The orchestrator (`src/index.ts`) -/

/-- `ensureExists` of `src/index.ts`: throw `RequiredProjectFileNotFound`
at the first listed file missing under the base path. -/
def ensureExists (basePath : FsPath) (files : List (FsPath × String)) (fs : Fs) :
    Except GenError Unit :=
  match files.find? (fun f => !(fsExists fs (basePath ++ f.1))) with
  | some f => .error (.requiredProjectFileNotFound f.2)
  | none => .ok ()

/-- The catch clause of `extendBackendMiddleware` of `src/index.ts`: a
`YAMLError` with code `nodeNotFound`, or any error with message
`Could not find fiori-tools-proxy`, is recovered by creating the proxy
middleware block with the single backend entry; every other error is
re-thrown unchanged. -/
def extendBackendApply (r : Except DocError UI5Yaml) (service : OdataService)
    (y : UI5Yaml) : Except DocError UI5Yaml :=
  match r with
  | .ok cfg => .ok cfg
  | .error e =>
    if e.isNodeNotFound || decide (e.message = "Could not find fiori-tools-proxy") then
      .ok (addFioriToolsProxydMiddleware y [service.previewSettings.getD emptyBackend]
        service.ignoreCertError)
    else .error e

/-- The configuration transformation performed by `extendBackendMiddleware`
of `src/index.ts` on one YAML document. -/
def extendBackendYaml (service : OdataService) (y : UI5Yaml) :
    Except DocError UI5Yaml :=
  extendBackendApply
    (addBackendToFioriToolsProxydMiddleware y (service.previewSettings.getD emptyBackend))
    service y

/-- `extendBackendMiddleware` of `src/index.ts`: apply the backend upsert
(recovering an absent middleware block) and stage the updated document;
returns the updated document alongside, mirroring the mutated config
object of the source. -/
def extendBackendMiddleware (fs : Fs) (service : OdataService) (y : UI5Yaml)
    (ui5ConfigPath : FsPath) : Except GenError (UI5Yaml × Fs) :=
  match extendBackendYaml service y with
  | .error e => .error (.docError e)
  | .ok cfg => .ok (cfg, fsWrite fs ui5ConfigPath (.yaml cfg))

/-- Reading a YAML document through `UI5Config.newInstance(fs.read(path))`:
a missing file is a fatal read error, unparsable content is fatal as
well. -/
def readYaml (fs : Fs) (p : FsPath) : Except GenError UI5Yaml :=
  match fsRead fs p with
  | some (.yaml y) => .ok y
  | some _ => .error (.readError p)
  | none => .error (.readError p)

/-- `generateMockserverMiddlewareBasedOnUi5MockYaml` of `src/index.ts`:
read `ui5-mock.yaml` next to `ui5.yaml`, and when a local config is at hand
and its file exists, update its mockserver middleware from the one found
there. -/
def generateMockserverMiddlewareBasedOnUi5MockYaml (fs : Fs) (ui5YamlPath : FsPath)
    (ui5LocalConfigPath : Option FsPath) (ui5LocalConfig : Option UI5Yaml) :
    Except GenError (Option UI5Yaml) :=
  let ui5MockYamlPath := ui5YamlPath.dropLast ++ ["ui5-mock.yaml"]
  match readYaml fs ui5MockYamlPath with
  | .error e => .error e
  | .ok mockCfg =>
    match ui5LocalConfigPath, ui5LocalConfig, findMockMiddleware mockCfg with
    | some lp, some lc, some mm =>
      if fsExists fs lp then .ok (some (updateMockMiddleware lc mm))
      else .ok ui5LocalConfig
    | _, _, _ => .ok ui5LocalConfig

/-- `writeLocalServiceFiles` of `src/index.ts`: write the prettified
metadata copy under the namespaced local folder, and stamp the local
annotation template when a local annotations name is set. -/
def writeLocalServiceFiles (fs : Fs) (basePath webappPath : FsPath)
    (service : OdataService) : Fs :=
  let fs := fsWrite fs (webappPath ++ ["localService", effectiveName service, "metadata.xml"])
    (.text (prettifyXml (service.metadata.getD "")))
  match service.localAnnotationsName with
  | some n =>
    fsWrite fs (basePath ++ ["webapp", "annotations", n ++ ".xml"])
      (.text (annTemplateContent service))
  | none => fs

/-- The part of `writeEDMXServiceFiles` of `src/index.ts` following the
backend-middleware extension of `ui5.yaml` and `ui5-local.yaml`: the
metadata-guarded mockserver generation, the package marker, the final
local-config write and the annotation files. -/
def writeEDMXRest (fs : Fs) (basePath : FsPath) (paths : ProjectPaths)
    (service : OdataService) (ui5Config : Option UI5Yaml)
    (ui5LocalConfigIn : Option UI5Yaml) : Except GenError Unit × Fs :=
  let step :=
    match service.metadata with
    | some _ =>
      let webappPath := getWebappPath basePath
      let afterMock :=
        match paths.ui5Yaml, ui5Config with
        | some yp, some _ =>
          let fs := generateMockserverConfig basePath fs service
          match generateMockserverMiddlewareBasedOnUi5MockYaml fs yp
              paths.ui5LocalYaml ui5LocalConfigIn with
          | .error e => (Except.error e, fs, ui5LocalConfigIn)
          | .ok lc =>
            match paths.ui5MockYaml with
            | some mp =>
              match readYaml fs mp with
              | .error e => (Except.error e, fs, lc)
              | .ok my =>
                match extendBackendMiddleware fs service my mp with
                | .error e => (Except.error e, fs, lc)
                | .ok (_, fs) => (Except.ok (), fs, lc)
            | none => (Except.ok (), fs, lc)
        | _, _ => (Except.ok (), fs, ui5LocalConfigIn)
      match afterMock with
      | (Except.error e, fs, lc) => (Except.error e, fs, lc)
      | (Except.ok _, fs, lc) =>
        (Except.ok (), writeLocalServiceFiles fs basePath webappPath service, lc)
    | none => (Except.ok (), fs, ui5LocalConfigIn)
  match step with
  | (Except.error e, fs, _) => (Except.error e, fs)
  | (Except.ok _, fs, ui5LocalConfig) =>
    let fs :=
      match paths.packageJson, paths.ui5Yaml with
      | some pp, some _ => updatePackageJson pp fs service.metadata.isSome
      | _, _ => fs
    let fs :=
      match paths.ui5LocalYaml, ui5LocalConfig with
      | some lp, some lc => fsWrite fs lp (.yaml lc)
      | _, _ => fs
    (Except.ok (), writeAnnotationXmlFiles fs basePath (effectiveName service)
      service.annotations)

/-- `writeEDMXServiceFiles` of `src/index.ts`: extend the backend
middleware of `ui5.yaml` and `ui5-local.yaml` when present (regardless of
metadata), then run the metadata-guarded remainder. -/
def writeEDMXServiceFiles (fs : Fs) (basePath : FsPath) (paths : ProjectPaths)
    (service : OdataService) : Except GenError Unit × Fs :=
  match paths.ui5Yaml with
  | none => writeEDMXRest fs basePath paths service none none
  | some yp =>
    match readYaml fs yp with
    | .error e => (.error e, fs)
    | .ok y =>
      match extendBackendMiddleware fs service y yp with
      | .error e => (.error e, fs)
      | .ok (cfg, fs) =>
        match paths.ui5LocalYaml with
        | none => writeEDMXRest fs basePath paths service (some cfg) none
        | some lp =>
          match readYaml fs lp with
          | .error e => (.error e, fs)
          | .ok ly =>
            match extendBackendMiddleware fs service ly lp with
            | .error e => (.error e, fs)
            | .ok (lcfg, fs) =>
              writeEDMXRest fs basePath paths service (some cfg) (some lcfg)

/-- `generate` of `src/index.ts`: locate the project files, require the
manifest, enhance the descriptor, merge the manifest, and for an EDMX
service write the YAML and local files (for a CDS service with
annotations, update the CDS files instead).  The staged filesystem at the
moment of an error is returned alongside the error, mirroring the shared
editor of the source. -/
def generate (basePath : FsPath) (service : OdataService) (fs : Fs) :
    Except GenError Unit × Fs :=
  let paths := findProjectFiles basePath fs
  match ensureExists basePath [(["webapp", "manifest.json"], "webapp/manifest.json")] fs with
  | .error e => (.error e, fs)
  | .ok _ =>
    let service := enhanceData basePath service fs
    match updateManifest basePath service fs with
    | .error e => (.error e, fs)
    | .ok fs1 =>
      if service.type = ServiceType.edmx then
        writeEDMXServiceFiles fs1 basePath paths service
      else if !service.annotations.isEmpty then
        (.ok (), updateCdsFilesWithAnnotations fs1 service.annotations)
      else
        (.ok (), fs1)

/-- `remove` of `src/index.ts`: delete the service from the manifest, and
for an EDMX service delete its backend entries (by url) and mockserver
entries (by path and annotation url paths) from each present YAML file and
delete the staged local annotation files; for a CDS service strip the CDS
annotations instead. -/
def remove (basePath : FsPath) (service : OdataService) (fs : Fs) :
    Except GenError Unit × Fs :=
  let paths := findProjectFiles basePath fs
  let fs := deleteServiceFromManifest basePath (effectiveName service) fs
  if service.type = ServiceType.edmx then
    let step1 :=
      match paths.ui5Yaml with
      | some yp =>
        match readYaml fs yp with
        | .error e => (Except.error e, fs)
        | .ok y =>
          (Except.ok (), fsWrite fs yp
            (.yaml (removeBackendFromProxyMiddleware y (service.url.getD ""))))
      | none => (Except.ok (), fs)
    match step1 with
    | (Except.error e, fs) => (Except.error e, fs)
    | (Except.ok _, fs) =>
      let annPaths := getEDMXAnnotationPaths service.annotations
      let step2 :=
        match paths.ui5LocalYaml with
        | some lp =>
          match readYaml fs lp with
          | .error e => (Except.error e, fs)
          | .ok y =>
            let y := removeBackendFromProxyMiddleware y (service.url.getD "")
            let y := removeServiceFromMockMiddleware y (service.path.getD "") annPaths
            (Except.ok (), fsWrite fs lp (.yaml y))
        | none => (Except.ok (), fs)
      match step2 with
      | (Except.error e, fs) => (Except.error e, fs)
      | (Except.ok _, fs) =>
        let step3 :=
          match paths.ui5MockYaml with
          | some mp =>
            match readYaml fs mp with
            | .error e => (Except.error e, fs)
            | .ok y =>
              let y := removeBackendFromProxyMiddleware y (service.url.getD "")
              let y := removeServiceFromMockMiddleware y (service.path.getD "") annPaths
              (Except.ok (), fsWrite fs mp (.yaml y))
          | none => (Except.ok (), fs)
        match step3 with
        | (Except.error e, fs) => (Except.error e, fs)
        | (Except.ok _, fs) =>
          (Except.ok (), removeAnnotationXmlFiles fs basePath (effectiveName service)
            service.annotations)
  else
    (Except.ok (), removeCdsAnnotationsFromFiles fs service.annotations)

/-! ### Specification views used by the theorems -/

/-- The closest-wins search for one project file: probe the levels from the
base path upward and return the first hit, with fuel equal to the number of
remaining components, mirroring the loop of `findProjectFiles`. -/
def closestHitAux (fs : Fs) : Nat → List String → String → Option FsPath
  | 0, _, _ => none
  | _ + 1, [], _ => none
  | n + 1, parts@(_ :: _), name =>
    if fsExists fs (parts ++ [name]) then some (parts ++ [name])
    else closestHitAux fs n parts.dropLast name

/-- The location of the closest occurrence of a file with the given name on
the way from the base path up to the filesystem root. -/
def closestHit (fs : Fs) (basePath : FsPath) (name : String) : Option FsPath :=
  closestHitAux fs basePath.length basePath name

/-- The staged filesystem produced by a successful `generate` on a project
that has none of the four discoverable files (no package.json and no YAML
configs): the manifest merge followed by the local file writes, with every
YAML-related step skipped. -/
def noYamlPostFs (basePath : FsPath) (enh : OdataService) (m : Manifest) (fs : Fs) : Fs :=
  let st := migrateFlatLayout (getWebappPath basePath) (effectiveName enh) m fs
  let fs1 := fsWrite st.2 (basePath ++ ["webapp", "manifest.json"])
    (.manifest (mergedManifest enh st.1))
  if enh.type = ServiceType.edmx then
    if enh.metadata.isSome then
      writeAnnotationXmlFiles (writeLocalServiceFiles fs1 basePath (getWebappPath basePath) enh)
        basePath (effectiveName enh) enh.annotations
    else
      writeAnnotationXmlFiles fs1 basePath (effectiveName enh) enh.annotations
  else
    if !enh.annotations.isEmpty then updateCdsFilesWithAnnotations fs1 enh.annotations
    else fs1

/-- The given url matches no backend entry of the proxy middleware. -/
def urlNotInBackend (y : UI5Yaml) (url : String) : Prop :=
  ∀ p, y.proxy = some p → ∀ e ∈ p.backend, e.url ≠ some url

/-- The given service path matches no mock service entry and none of the
given url paths matches a mock annotation entry. -/
def pathNotInMock (y : UI5Yaml) (path : String) (annPaths : List String) : Prop :=
  ∀ mm, y.mock = some mm →
    (∀ e ∈ mm.services, e.servicePath ≠ path) ∧ (∀ u ∈ mm.annotations, u ∉ annPaths)

/-! ### Concrete fixtures for witnesses and counterexamples -/

/-- A small concrete EDMX descriptor (the common config of the unit
tests). -/
def svcFixture : OdataService :=
  { name := none
    url := some "http://localhost"
    path := some "/sap/odata/testme"
    client := some "012"
    destinationName := none
    model := none
    version := some "2"
    metadata := some "<HELLO WORLD />"
    annotations := []
    localAnnotationsName := none
    previewSettings := none
    ignoreCertError := none
    type := ServiceType.edmx }

/-- A concrete empty well-formed manifest. -/
def manifestFixture : Manifest :=
  { appId := some "testappid", dataSources := [], models := [] }

/-- The Northwind descriptor of the enhancement defaults test. -/
def northwindSvc : OdataService :=
  { name := none
    url := some "https://services.odata.org"
    path := some "/V2/Northwind/Northwind.svc"
    client := none
    destinationName := none
    model := none
    version := some "2"
    metadata := none
    annotations := []
    localAnnotationsName := none
    previewSettings := none
    ignoreCertError := none
    type := ServiceType.edmx }

/-- The Northwind descriptor with the path left out. -/
def northwindNoPath : OdataService :=
  { northwindSvc with path := none }

/-- A manifest holding one unrelated service, for the collision test. -/
def collManifest : Manifest :=
  ⟨none, [("exisitingSerivce", ⟨DSType.odata, "", ⟨none, [], none⟩⟩)], []⟩

/-- A one-file staged filesystem holding only a well-formed manifest. -/
def manifestOnlyFs : Fs :=
  [((["p", "webapp", "manifest.json"] : FsPath), .manifest manifestFixture)]

/-- A YAML config with an empty proxy middleware. -/
def emptyProxyYaml : UI5Yaml := ⟨some ⟨false, []⟩, none⟩

/-- The common descriptor without live metadata. -/
def svcNoMetadata : OdataService := { svcFixture with metadata := none }

/-- A project with a manifest and a ui5.yaml holding an empty proxy
middleware. -/
def yamlProjectFs : Fs :=
  [((["p", "webapp", "manifest.json"] : FsPath), .manifest manifestFixture),
    ((["p", "ui5.yaml"] : FsPath), .yaml emptyProxyYaml)]

/-- The backend entry of the remove tests. -/
def remBackend : BackendEntry :=
  ⟨some "/sap", some "https://localhost", none, none, none, none, none⟩

/-- A YAML config with one backend entry and one mock service plus one mock
annotation, as set up by the remove tests. -/
def remYaml : UI5Yaml :=
  ⟨some ⟨false, [remBackend]⟩,
    some ⟨[⟨"mainService", "/sap"⟩], [catalogUriOf "SEPMRA_PROD_MAN"]⟩⟩

/-- The manifest of the remove tests: one service with a backend annotation
and a local annotation. -/
def remManifest : Manifest :=
  ⟨some "testappid",
    [("mainService", ⟨DSType.odata, "/sap",
      ⟨some "annotations/annotation.xml", ["SEPMRA_PROD_MAN", "annotation"], none⟩⟩),
      ("SEPMRA_PROD_MAN", ⟨DSType.odataAnnot, catalogUriOf "SEPMRA_PROD_MAN",
        ⟨some "localService/SEPMRA_PROD_MAN.xml", [], none⟩⟩),
      ("annotation", ⟨DSType.odataAnnot, "annotations/annotation.xml",
        ⟨some "annotations/annotation.xml", [], none⟩⟩)],
    [("", "mainService")]⟩

/-- The full staged project of the remove tests. -/
def remProjectFs : Fs :=
  [((["t", "ui5.yaml"] : FsPath), .yaml ⟨some ⟨false, [remBackend]⟩, none⟩),
    ((["t", "ui5-local.yaml"] : FsPath), .yaml remYaml),
    ((["t", "ui5-mock.yaml"] : FsPath), .yaml remYaml),
    ((["t", "package.json"] : FsPath), .packageJson ⟨false, false⟩),
    ((["t", "webapp", "manifest.json"] : FsPath), .manifest remManifest)]

/-- The unknown-service descriptor of the remove tests. -/
def dummySvc : OdataService :=
  { name := some "dummyService"
    url := some "https://dummyUrl"
    path := some "/dummyPath"
    client := none
    destinationName := none
    model := none
    version := none
    metadata := none
    annotations := [⟨none, "dummy-technical-name", none⟩]
    localAnnotationsName := none
    previewSettings := none
    ignoreCertError := none
    type := ServiceType.edmx }

/-- An unknown-service descriptor whose url happens to match the backend
entry of the project. -/
def dummySvcMatchingUrl : OdataService :=
  { dummySvc with url := some "https://localhost" }

/-- The pre-existing main service of the flat-layout migration scenario,
with its metadata file still directly under localService/. -/
def c4Ds1 : DataSource :=
  ⟨DSType.odata, "/sap/opu/odata/first/",
    ⟨some "localService/metadata.xml", ["SEPMRA_PROD_MAN"], some "2.0"⟩⟩

/-- Its backend-annotation data source, also in flat layout. -/
def c4AnnDs1 : DataSource :=
  ⟨DSType.odataAnnot, "/sap/opu/odata/IWFND/CATALOGSERVICE;v=2/",
    ⟨some "localService/SEPMRA_PROD_MAN.xml", [], none⟩⟩

/-- A manifest holding exactly the old service and its annotation. -/
def c4Manifest : Manifest :=
  ⟨some "c4app", [("mainService", c4Ds1), ("SEPMRA_PROD_MAN", c4AnnDs1)], []⟩

/-- A project with the flat-layout manifest and both flat local files,
and no package.json or ui5 yaml anywhere. -/
def c4Fs : Fs :=
  [(["app", "webapp", "manifest.json"], .manifest c4Manifest),
    (["app", "webapp", "localService", "metadata.xml"], .text "<old metadata/>"),
    (["app", "webapp", "localService", "SEPMRA_PROD_MAN.xml"], .text "<old annfile/>")]

/-- An already-namespaced data source, so the flat-layout migration is not
triggered and the round-trip claim predicts exact restoration. -/
def c3OldDs : DataSource :=
  ⟨DSType.odata, "/sap/opu/odata/old/",
    ⟨some "localService/mainService/metadata.xml", [], some "2.0"⟩⟩

/-- A manifest holding one service named mainService. -/
def c3Manifest : Manifest :=
  ⟨some "c3app", [("mainService", c3OldDs)], []⟩

/-- A project holding only that manifest. -/
def c3Fs : Fs :=
  [(["app", "webapp", "manifest.json"], .manifest c3Manifest)]

/-- A descriptor whose name collides with the existing mainService entry:
generate overwrites the entry in place, so the following remove deletes
what was there before. -/
def c3CollSvc : OdataService :=
  { name := some "mainService"
    url := some "http://coll"
    path := some "/sap/opu/odata/new/"
    client := none
    destinationName := none
    model := some "collModel"
    version := some "2"
    metadata := some "<edmx-new/>"
    annotations := []
    localAnnotationsName := none
    previewSettings := none
    ignoreCertError := none
    type := ServiceType.edmx }

/-- A descriptor whose name is fresh for the same project. -/
def c3FreshSvc : OdataService :=
  { c3CollSvc with name := some "secondService", model := some "sec" }

/-- The descriptor of the second service being generated. -/
def c4Svc : OdataService :=
  { name := some "secondService"
    url := some "http://second"
    path := some "/sap/opu/odata/second/"
    client := none
    destinationName := none
    model := some "second"
    version := some "2"
    metadata := some "<edmx-second/>"
    annotations := []
    localAnnotationsName := none
    previewSettings := none
    ignoreCertError := none
    type := ServiceType.edmx }

/-! ## Filesystem lemmas -/

theorem fsRead_nil (p : FsPath) : fsRead [] p = none := rfl

theorem fsRead_cons (e : FsPath × FileContent) (fs : Fs) (p : FsPath) :
    fsRead (e :: fs) p = if e.1 = p then some e.2 else fsRead fs p := by
  by_cases h : e.1 = p <;> simp [fsRead, List.find?_cons, h]

theorem fsExists_cons (e : FsPath × FileContent) (fs : Fs) (p : FsPath) :
    fsExists (e :: fs) p = (decide (e.1 = p) || fsExists fs p) := by
  simp [fsExists, List.any_cons]

theorem fsExists_eq_isSome (fs : Fs) (p : FsPath) :
    fsExists fs p = (fsRead fs p).isSome := by
  induction fs with
  | nil => rfl
  | cons e fs ih =>
    rw [fsExists_cons, fsRead_cons, ih]
    by_cases h : e.1 = p <;> simp [h]

theorem fsRead_map_write_self (fs : Fs) (p : FsPath) (c : FileContent)
    (hex : fsExists fs p = true) :
    fsRead (fs.map (fun e => if e.1 = p then (p, c) else e)) p = some c := by
  induction fs with
  | nil => simp [fsExists] at hex
  | cons e fs ih =>
    rw [fsExists_cons] at hex
    rw [List.map_cons]
    by_cases he : e.1 = p
    · rw [if_pos he, fsRead_cons, if_pos rfl]
    · rw [if_neg he, fsRead_cons, if_neg he]
      simp only [he, decide_eq_true_eq, Bool.false_or] at hex
      apply ih
      cases hb : fsExists fs p
      · rw [hb] at hex
        simp [he] at hex
      · rfl

theorem fsRead_fsWrite_self (fs : Fs) (p : FsPath) (c : FileContent) :
    fsRead (fsWrite fs p c) p = some c := by
  unfold fsWrite
  by_cases h : fsExists fs p
  · rw [if_pos h]
    exact fsRead_map_write_self fs p c h
  · rw [if_neg h]
    induction fs with
    | nil => simp [fsRead_cons]
    | cons e fs ih =>
      rw [fsExists_cons] at h
      by_cases he : e.1 = p
      · rw [he] at h
        simp at h
      · rw [List.cons_append, fsRead_cons, if_neg he]
        apply ih
        intro hc
        apply h
        rw [hc, Bool.or_true]

theorem fsRead_fsWrite_ne (fs : Fs) (p q : FsPath) (c : FileContent) (h : q ≠ p) :
    fsRead (fsWrite fs p c) q = fsRead fs q := by
  have hpq : ¬ p = q := fun hh => h hh.symm
  unfold fsWrite
  by_cases hex : fsExists fs p
  · rw [if_pos hex]
    clear hex
    induction fs with
    | nil => rfl
    | cons e fs ih =>
      rw [List.map_cons, fsRead_cons, fsRead_cons]
      by_cases he : e.1 = p
      · have h2 : ¬ e.1 = q := by
          rw [he]
          exact hpq
        rw [if_pos he, if_neg h2]
        have h1 : ¬ ((p, c) : FsPath × FileContent).1 = q := hpq
        rw [if_neg h1, ih]
      · rw [if_neg he]
        by_cases heq : e.1 = q
        · rw [if_pos heq, if_pos heq]
        · rw [if_neg heq, if_neg heq, ih]
  · rw [if_neg hex]
    clear hex
    induction fs with
    | nil =>
      rw [List.nil_append, fsRead_cons, if_neg hpq]
    | cons e fs ih =>
      rw [List.cons_append, fsRead_cons, fsRead_cons]
      by_cases heq : e.1 = q
      · rw [if_pos heq, if_pos heq]
      · rw [if_neg heq, if_neg heq, ih]

theorem fsExists_fsWrite (fs : Fs) (p q : FsPath) (c : FileContent) :
    fsExists (fsWrite fs p c) q = (fsExists fs q || decide (q = p)) := by
  by_cases h : q = p
  · subst h
    simp [fsExists_eq_isSome, fsRead_fsWrite_self]
  · simp [fsExists_eq_isSome, fsRead_fsWrite_ne fs p q c h, h]

theorem fsRead_fsDelete_self (fs : Fs) (p : FsPath) :
    fsRead (fsDelete fs p) p = none := by
  induction fs with
  | nil => rfl
  | cons e fs ih =>
    unfold fsDelete
    rw [List.filter_cons]
    by_cases he : e.1 = p
    · have hcond : ¬ ((!decide (e.1 = p)) = true) := by simp [he]
      rw [if_neg hcond]
      exact ih
    · have hcond : (!decide (e.1 = p)) = true := by simp [he]
      rw [if_pos hcond, fsRead_cons, if_neg he]
      exact ih

theorem fsRead_fsDelete_ne (fs : Fs) (p q : FsPath) (h : q ≠ p) :
    fsRead (fsDelete fs p) q = fsRead fs q := by
  induction fs with
  | nil => rfl
  | cons e fs ih =>
    unfold fsDelete
    rw [List.filter_cons, fsRead_cons]
    by_cases he : e.1 = p
    · have h2 : ¬ e.1 = q := by
        rw [he]
        exact fun hh => h hh.symm
      have hcond : ¬ ((!decide (e.1 = p)) = true) := by simp [he]
      rw [if_neg hcond, if_neg h2]
      exact ih
    · have hcond : (!decide (e.1 = p)) = true := by simp [he]
      rw [if_pos hcond, fsRead_cons]
      by_cases heq : e.1 = q
      · rw [if_pos heq, if_pos heq]
      · rw [if_neg heq, if_neg heq]
        exact ih

theorem fsExists_fsDelete (fs : Fs) (p q : FsPath) :
    fsExists (fsDelete fs p) q = (fsExists fs q && !(decide (q = p))) := by
  by_cases h : q = p
  · subst h
    simp [fsExists_eq_isSome, fsRead_fsDelete_self]
  · simp [fsExists_eq_isSome, fsRead_fsDelete_ne fs p q h, h]

theorem read_entry_unique (fs : Fs) (p : FsPath) (c : FileContent)
    (hnd : (fs.map Prod.fst).Nodup) (h : fsRead fs p = some c) :
    ∀ x ∈ fs, x.1 = p → x = (p, c) := by
  induction fs with
  | nil => intro x hx; cases hx
  | cons e fs ih =>
    rw [fsRead_cons] at h
    rw [List.map_cons, List.nodup_cons] at hnd
    intro x hx hxp
    rcases List.mem_cons.mp hx with hxe | hxfs
    · subst hxe
      rw [if_pos hxp] at h
      injection h with h2
      exact Prod.ext hxp h2
    · by_cases he : e.1 = p
      · exfalso
        apply hnd.1
        rw [he, ← hxp]
        exact List.mem_map_of_mem Prod.fst hxfs
      · rw [if_neg he] at h
        exact ih hnd.2 h x hxfs hxp

theorem map_write_eq_self (fs : Fs) (p : FsPath) (c : FileContent)
    (hall : ∀ x ∈ fs, x.1 = p → x = (p, c)) :
    fs.map (fun e => if e.1 = p then (p, c) else e) = fs := by
  induction fs with
  | nil => rfl
  | cons e fs ih =>
    rw [List.map_cons]
    have htail : fs.map (fun e => if e.1 = p then (p, c) else e) = fs :=
      ih (fun x hx => hall x (List.mem_cons_of_mem e hx))
    by_cases he : e.1 = p
    · rw [if_pos he, htail, hall e (List.mem_cons_self e fs) he]
    · rw [if_neg he, htail]

theorem fsWrite_noop (fs : Fs) (p : FsPath) (c : FileContent)
    (hnd : (fs.map Prod.fst).Nodup) (h : fsRead fs p = some c) :
    fsWrite fs p c = fs := by
  have hex : fsExists fs p = true := by
    rw [fsExists_eq_isSome, h]
    rfl
  unfold fsWrite
  rw [if_pos hex, map_write_eq_self fs p c (read_entry_unique fs p c hnd h)]

/-! ## Characterization of the upward project-file discovery -/

theorem checkLevel_packageJson (fs : Fs) (path : FsPath) (f : ProjectPaths) :
    (checkLevel fs path f).packageJson =
      (if f.packageJson.isNone && fsExists fs (path ++ ["package.json"]) then
        some (path ++ ["package.json"]) else f.packageJson) := by
  simp only [checkLevel]
  split_ifs <;> rfl

theorem checkLevel_ui5Yaml (fs : Fs) (path : FsPath) (f : ProjectPaths) :
    (checkLevel fs path f).ui5Yaml =
      (if f.ui5Yaml.isNone && fsExists fs (path ++ ["ui5.yaml"]) then
        some (path ++ ["ui5.yaml"]) else f.ui5Yaml) := by
  simp only [checkLevel]
  split_ifs <;> rfl

theorem checkLevel_ui5LocalYaml (fs : Fs) (path : FsPath) (f : ProjectPaths) :
    (checkLevel fs path f).ui5LocalYaml =
      (if f.ui5LocalYaml.isNone && fsExists fs (path ++ ["ui5-local.yaml"]) then
        some (path ++ ["ui5-local.yaml"]) else f.ui5LocalYaml) := by
  simp only [checkLevel]
  split_ifs <;> rfl

theorem checkLevel_ui5MockYaml (fs : Fs) (path : FsPath) (f : ProjectPaths) :
    (checkLevel fs path f).ui5MockYaml =
      (if f.ui5MockYaml.isNone && fsExists fs (path ++ ["ui5-mock.yaml"]) then
        some (path ++ ["ui5-mock.yaml"]) else f.ui5MockYaml) := by
  simp only [checkLevel]
  split_ifs <;> rfl

theorem allFound_packageJson (f : ProjectPaths) (h : allFound f = true) :
    f.packageJson.isSome = true := by
  unfold allFound at h
  exact (Bool.and_eq_true_iff.mp
    (Bool.and_eq_true_iff.mp (Bool.and_eq_true_iff.mp h).1).1).1

theorem allFound_ui5Yaml (f : ProjectPaths) (h : allFound f = true) :
    f.ui5Yaml.isSome = true := by
  unfold allFound at h
  exact (Bool.and_eq_true_iff.mp
    (Bool.and_eq_true_iff.mp (Bool.and_eq_true_iff.mp h).1).1).2

theorem allFound_ui5LocalYaml (f : ProjectPaths) (h : allFound f = true) :
    f.ui5LocalYaml.isSome = true := by
  unfold allFound at h
  exact (Bool.and_eq_true_iff.mp (Bool.and_eq_true_iff.mp h).1).2

theorem allFound_ui5MockYaml (f : ProjectPaths) (h : allFound f = true) :
    f.ui5MockYaml.isSome = true := by
  unfold allFound at h
  exact (Bool.and_eq_true_iff.mp h).2

theorem findAux_packageJson (fs : Fs) (n : Nat) (parts : List String)
    (f : ProjectPaths) :
    (findAux fs n parts f).packageJson =
      (if f.packageJson.isSome then f.packageJson
        else closestHitAux fs n parts "package.json") := by
  induction n generalizing parts f with
  | zero =>
    cases h : f.packageJson <;> simp [findAux, closestHitAux, h]
  | succ n ih =>
    cases parts with
    | nil =>
      cases h : f.packageJson <;> simp [findAux, closestHitAux, h]
    | cons a parts =>
      rw [findAux, closestHitAux]
      by_cases hall : allFound f = true
      · rw [if_pos hall]
        rw [if_pos (allFound_packageJson f hall)]
      · rw [if_neg hall, ih, checkLevel_packageJson]
        cases hpj : f.packageJson with
        | some v => simp
        | none =>
          cases hex : fsExists fs (a :: parts ++ ["package.json"]) <;> simp [hex]

theorem findAux_ui5Yaml (fs : Fs) (n : Nat) (parts : List String)
    (f : ProjectPaths) :
    (findAux fs n parts f).ui5Yaml =
      (if f.ui5Yaml.isSome then f.ui5Yaml
        else closestHitAux fs n parts "ui5.yaml") := by
  induction n generalizing parts f with
  | zero =>
    cases h : f.ui5Yaml <;> simp [findAux, closestHitAux, h]
  | succ n ih =>
    cases parts with
    | nil =>
      cases h : f.ui5Yaml <;> simp [findAux, closestHitAux, h]
    | cons a parts =>
      rw [findAux, closestHitAux]
      by_cases hall : allFound f = true
      · rw [if_pos hall]
        rw [if_pos (allFound_ui5Yaml f hall)]
      · rw [if_neg hall, ih, checkLevel_ui5Yaml]
        cases hpj : f.ui5Yaml with
        | some v => simp
        | none =>
          cases hex : fsExists fs (a :: parts ++ ["ui5.yaml"]) <;> simp [hex]

theorem findAux_ui5LocalYaml (fs : Fs) (n : Nat) (parts : List String)
    (f : ProjectPaths) :
    (findAux fs n parts f).ui5LocalYaml =
      (if f.ui5LocalYaml.isSome then f.ui5LocalYaml
        else closestHitAux fs n parts "ui5-local.yaml") := by
  induction n generalizing parts f with
  | zero =>
    cases h : f.ui5LocalYaml <;> simp [findAux, closestHitAux, h]
  | succ n ih =>
    cases parts with
    | nil =>
      cases h : f.ui5LocalYaml <;> simp [findAux, closestHitAux, h]
    | cons a parts =>
      rw [findAux, closestHitAux]
      by_cases hall : allFound f = true
      · rw [if_pos hall]
        rw [if_pos (allFound_ui5LocalYaml f hall)]
      · rw [if_neg hall, ih, checkLevel_ui5LocalYaml]
        cases hpj : f.ui5LocalYaml with
        | some v => simp
        | none =>
          cases hex : fsExists fs (a :: parts ++ ["ui5-local.yaml"]) <;> simp [hex]

theorem findAux_ui5MockYaml (fs : Fs) (n : Nat) (parts : List String)
    (f : ProjectPaths) :
    (findAux fs n parts f).ui5MockYaml =
      (if f.ui5MockYaml.isSome then f.ui5MockYaml
        else closestHitAux fs n parts "ui5-mock.yaml") := by
  induction n generalizing parts f with
  | zero =>
    cases h : f.ui5MockYaml <;> simp [findAux, closestHitAux, h]
  | succ n ih =>
    cases parts with
    | nil =>
      cases h : f.ui5MockYaml <;> simp [findAux, closestHitAux, h]
    | cons a parts =>
      rw [findAux, closestHitAux]
      by_cases hall : allFound f = true
      · rw [if_pos hall]
        rw [if_pos (allFound_ui5MockYaml f hall)]
      · rw [if_neg hall, ih, checkLevel_ui5MockYaml]
        cases hpj : f.ui5MockYaml with
        | some v => simp
        | none =>
          cases hex : fsExists fs (a :: parts ++ ["ui5-mock.yaml"]) <;> simp [hex]

theorem findProjectFiles_eq_closestHits (basePath : FsPath) (fs : Fs) :
    findProjectFiles basePath fs =
      { packageJson := closestHit fs basePath "package.json"
        ui5Yaml := closestHit fs basePath "ui5.yaml"
        ui5LocalYaml := closestHit fs basePath "ui5-local.yaml"
        ui5MockYaml := closestHit fs basePath "ui5-mock.yaml" } := by
  have h1 := findAux_packageJson fs basePath.length basePath {}
  have h2 := findAux_ui5Yaml fs basePath.length basePath {}
  have h3 := findAux_ui5LocalYaml fs basePath.length basePath {}
  have h4 := findAux_ui5MockYaml fs basePath.length basePath {}
  simp only [Option.isSome_none, if_neg (by simp : ¬ (false = true))] at h1 h2 h3 h4
  cases hr : findProjectFiles basePath fs with
  | mk rp ry rl rm =>
    unfold findProjectFiles at hr
    rw [hr] at h1 h2 h3 h4
    simp only at h1 h2 h3 h4
    unfold closestHit
    rw [← h1, ← h2, ← h3, ← h4]

/-! ## Claim C9 -/

/-- C9: when generate adds a backend entry to a YAML file and the expected
proxy middleware block is absent (the document model reports a
node-not-found condition), the block is created containing that single
backend entry instead of failing; any error of a different kind from the
YAML document model is re-thrown unchanged to the caller. -/
theorem claim9_middleware_notfound_recovered (service : OdataService)
    (y : UI5Yaml) (fs : Fs) (p : FsPath) (e : DocError) :
    (y.proxy = none →
      extendBackendMiddleware fs service y p =
        .ok
          ({ y with proxy := some ⟨service.ignoreCertError.getD false,
              [service.previewSettings.getD emptyBackend]⟩ },
            fsWrite fs p (.yaml { y with proxy := some ⟨service.ignoreCertError.getD false,
              [service.previewSettings.getD emptyBackend]⟩ }))) ∧
    (e.isNodeNotFound = false → e.message ≠ "Could not find fiori-tools-proxy" →
      extendBackendApply (.error e) service y = .error e) := by
  constructor
  · intro hnone
    unfold extendBackendMiddleware extendBackendYaml
    unfold addBackendToFioriToolsProxydMiddleware
    rw [hnone]
    unfold extendBackendApply
    simp [DocError.isNodeNotFound, addFioriToolsProxydMiddleware]
  · intro hcode hmsg
    unfold extendBackendApply
    simp [hcode, hmsg]

/-- Witness for C9 at a concrete input: an empty YAML document has its
proxy middleware created with the single backend entry, and a
property-not-found error is re-thrown unchanged. -/
theorem claim9_witness :
    extendBackendMiddleware [] svcFixture ⟨none, none⟩ ["p", "ui5.yaml"] =
      .ok
        ({ proxy := some ⟨false, [emptyBackend]⟩, mock := none },
          [((["p", "ui5.yaml"] : FsPath),
            .yaml { proxy := some ⟨false, [emptyBackend]⟩, mock := none })]) ∧
    extendBackendApply (.error (.yamlError .propertyNotFound "Property not found"))
        svcFixture ⟨none, none⟩ =
      .error (.yamlError .propertyNotFound "Property not found") := by
  constructor
  · have h := (claim9_middleware_notfound_recovered svcFixture ⟨none, none⟩ []
      ["p", "ui5.yaml"] (.otherError "")).1 rfl
    rw [h]
    rfl
  · exact (claim9_middleware_notfound_recovered svcFixture ⟨none, none⟩ []
      ["p", "ui5.yaml"] (.yamlError .propertyNotFound "Property not found")).2
      (by decide) (by decide)

/-! ## Claim C1 -/

/-- C1: for every base path and descriptor, generate fails with
`RequiredProjectFileNotFound` when `webapp/manifest.json` does not exist,
and with `RequiredProjectPropertyNotFound` when the manifest exists but
lacks the `sap.app.id` property; in both cases the error is raised before
any mutation, so the staged filesystem returned alongside the error is the
initial one. -/
theorem claim1_generate_required_errors (basePath : FsPath)
    (service : OdataService) (fs : Fs) :
    (fsExists fs (basePath ++ ["webapp", "manifest.json"]) = false →
      generate basePath service fs =
        (.error (.requiredProjectFileNotFound "webapp/manifest.json"), fs)) ∧
    (∀ m : Manifest,
      fsRead fs (basePath ++ ["webapp", "manifest.json"]) = some (.manifest m) →
      m.appId.getD "" = "" →
      generate basePath service fs =
        (.error (.requiredProjectPropertyNotFound "sap.app.id"
          (basePath ++ ["webapp", "manifest.json"])), fs)) := by
  constructor
  · intro habs
    unfold generate ensureExists
    simp [List.find?, habs]
  · intro m hread hid
    have hex : fsExists fs (basePath ++ ["webapp", "manifest.json"]) = true := by
      rw [fsExists_eq_isSome, hread]
      rfl
    have hmp : getWebappPath basePath ++ ["manifest.json"] =
        basePath ++ ["webapp", "manifest.json"] := by
      simp [getWebappPath]
    unfold generate ensureExists
    simp only [List.find?, hex, Bool.not_true]
    unfold updateManifest
    rw [hmp]
    simp [hread, hid]

/-- Witness for C1 at concrete inputs: an empty filesystem yields the
required-file error, and a manifest without `sap.app.id` yields the
required-property error, in both cases with the staged filesystem
unchanged. -/
theorem claim1_witness :
    generate ["p"] svcFixture [] =
      (.error (.requiredProjectFileNotFound "webapp/manifest.json"), []) ∧
    generate ["p"] svcFixture
        [((["p", "webapp", "manifest.json"] : FsPath),
          .manifest { appId := none, dataSources := [], models := [] })] =
      (.error (.requiredProjectPropertyNotFound "sap.app.id"
          ["p", "webapp", "manifest.json"]),
        [((["p", "webapp", "manifest.json"] : FsPath),
          .manifest { appId := none, dataSources := [], models := [] })]) := by
  constructor
  · exact (claim1_generate_required_errors ["p"] svcFixture []).1 (by decide)
  · exact (claim1_generate_required_errors ["p"] svcFixture _).2
      { appId := none, dataSources := [], models := [] } (by decide) (by decide)

/-! ## Claim C10 -/

/-- C10: generate locates package.json, ui5.yaml, ui5-local.yaml and
ui5-mock.yaml by walking upward from the base path (each file
independently, the closest level wins, and the walk is a terminating
function), but it never searches upward for the manifest:
`webapp/manifest.json` must exist directly under the base path, and
generate fails with the required-file error when it is absent there, even
when an ancestor directory holds a manifest. -/
theorem claim10_upward_discovery (fs : Fs) (basePath : FsPath) :
    (findProjectFiles basePath fs =
      { packageJson := closestHit fs basePath "package.json"
        ui5Yaml := closestHit fs basePath "ui5.yaml"
        ui5LocalYaml := closestHit fs basePath "ui5-local.yaml"
        ui5MockYaml := closestHit fs basePath "ui5-mock.yaml" }) ∧
    (∀ (service : OdataService) (ancestor : FsPath), ancestor <+: basePath →
      fsExists fs (ancestor ++ ["webapp", "manifest.json"]) = true →
      fsExists fs (basePath ++ ["webapp", "manifest.json"]) = false →
      generate basePath service fs =
        (.error (.requiredProjectFileNotFound "webapp/manifest.json"), fs)) := by
  constructor
  · exact findProjectFiles_eq_closestHits basePath fs
  · intro service ancestor _ _ habs
    unfold generate ensureExists
    simp [List.find?, habs]

/-- Witness for C10 at a concrete input: with a manifest and a ui5.yaml
under the ancestor `a` only, discovery from `a/b` finds the ui5.yaml of the
ancestor, yet generate still demands `a/b/webapp/manifest.json` and raises
the required-file error. -/
theorem claim10_witness :
    generate ["a", "b"] svcFixture
        [((["a", "webapp", "manifest.json"] : FsPath), .manifest manifestFixture),
          ((["a", "ui5.yaml"] : FsPath), .yaml ⟨none, none⟩)] =
      (.error (.requiredProjectFileNotFound "webapp/manifest.json"),
        [((["a", "webapp", "manifest.json"] : FsPath), .manifest manifestFixture),
          ((["a", "ui5.yaml"] : FsPath), .yaml ⟨none, none⟩)]) ∧
    findProjectFiles ["a", "b"]
        [((["a", "webapp", "manifest.json"] : FsPath), .manifest manifestFixture),
          ((["a", "ui5.yaml"] : FsPath), .yaml ⟨none, none⟩)] =
      { packageJson := none, ui5Yaml := some ["a", "ui5.yaml"],
        ui5LocalYaml := none, ui5MockYaml := none } := by
  constructor
  · exact (claim10_upward_discovery _ ["a", "b"]).2 svcFixture ["a"]
      ⟨["b"], rfl⟩ (by decide) (by decide)
  · rw [(claim10_upward_discovery _ ["a", "b"]).1]
    decide

/-! ## Association-list lemmas -/

theorem find?_upsertAssoc_self {α : Type} [DecidableEq α]
    (l : List (String × α)) (k : String) (v : α) :
    (upsertAssoc l k v).find? (fun e => decide (e.1 = k)) = some (k, v) := by
  unfold upsertAssoc
  by_cases hany : l.any (fun e => decide (e.1 = k)) = true
  · rw [if_pos hany]
    induction l with
    | nil => simp at hany
    | cons e l ih =>
      rw [List.map_cons, List.find?_cons]
      by_cases he : e.1 = k
      · rw [if_pos he]
        simp
      · rw [if_neg he]
        rw [List.any_cons] at hany
        simp only [he, decide_eq_true_eq, Bool.false_or] at hany
        have : (decide (e.1 = k)) = false := by simp [he]
        simp only [this]
        apply ih
        cases hb : l.any (fun e => decide (e.1 = k))
        · rw [hb] at hany
          simp [he] at hany
        · rfl
  · rw [if_neg hany]
    induction l with
    | nil => simp
    | cons e l ih =>
      rw [List.cons_append, List.find?_cons]
      have he : ¬ (e.1 = k) := by
        intro hh
        apply hany
        rw [List.any_cons]
        simp [hh]
      have : (decide (e.1 = k)) = false := by simp [he]
      rw [this]
      apply ih
      intro hc
      apply hany
      rw [List.any_cons, hc, Bool.or_true]

theorem find?_upsertAssoc_ne {α : Type} [DecidableEq α]
    (l : List (String × α)) (k k' : String) (v : α) (h : k' ≠ k) :
    (upsertAssoc l k v).find? (fun e => decide (e.1 = k')) =
      l.find? (fun e => decide (e.1 = k')) := by
  unfold upsertAssoc
  by_cases hany : l.any (fun e => decide (e.1 = k)) = true
  · rw [if_pos hany]
    clear hany
    induction l with
    | nil => rfl
    | cons e l ih =>
      rw [List.map_cons, List.find?_cons, List.find?_cons]
      by_cases he : e.1 = k
      · have h1 : (decide (((k, v) : String × α).1 = k')) = false := by
          simp
          exact fun hh => h hh.symm
        have h2 : (decide (e.1 = k')) = false := by
          simp [he]
          exact fun hh => h hh.symm
        rw [if_pos he, h1, h2, ih]
      · rw [if_neg he]
        cases hd : decide (e.1 = k')
        · rw [ih]
        · rfl
  · rw [if_neg hany]
    clear hany
    induction l with
    | nil =>
      simp only [List.nil_append, List.find?_cons, List.find?_nil]
      have h1 : (decide (((k, v) : String × α).1 = k')) = false := by
        simp
        exact fun hh => h hh.symm
      rw [h1]
    | cons e l ih =>
      rw [List.cons_append, List.find?_cons, List.find?_cons]
      cases hd : decide (e.1 = k')
      · rw [ih]
      · rfl

theorem lookupDS_upsert_self (m : Manifest) (ds : List (String × DataSource))
    (k : String) (v : DataSource) (mo : List (String × String)) :
    lookupDS ⟨m.appId, upsertAssoc ds k v, mo⟩ k = some v := by
  unfold lookupDS
  simp only [find?_upsertAssoc_self]
  rfl

theorem lookupDS_upsert_ne (m : Manifest) (ds : List (String × DataSource))
    (k k' : String) (v : DataSource) (mo : List (String × String)) (h : k' ≠ k) :
    lookupDS ⟨m.appId, upsertAssoc ds k v, mo⟩ k' = lookupDS ⟨m.appId, ds, mo⟩ k' := by
  unfold lookupDS
  simp only [find?_upsertAssoc_ne ds k k' v h]

/-! ## Manifest-merge helper lemmas -/

theorem ne_of_length_ne {α : Type} (l1 l2 : List α) (h : l1.length ≠ l2.length) :
    l1 ≠ l2 := by
  intro hh
  rw [hh] at h
  exact h rfl

theorem lookupDS_bindModel (m : Manifest) (mo n k : String) :
    lookupDS (bindModel m mo n) k = lookupDS m k := by
  unfold bindModel
  split
  · split
    · rfl
    · rfl
  · rfl

theorem lookupDS_foldl_ann (anns : List EdmxAnnot) (name k : String)
    (h : ∀ a ∈ anns, annKey a ≠ k) (m : Manifest) :
    lookupDS (anns.foldl (fun m a =>
      { m with dataSources := upsertAssoc m.dataSources (annKey a) (annDataSource name a) }) m) k =
      lookupDS m k := by
  induction anns generalizing m with
  | nil => rfl
  | cons a anns ih =>
    rw [List.foldl_cons]
    rw [ih (fun x hx => h x (List.mem_cons_of_mem a hx))]
    have hne : k ≠ annKey a := fun hh => h a (List.mem_cons_self a anns) hh.symm
    exact lookupDS_upsert_ne m m.dataSources (annKey a) k (annDataSource name a) m.models hne

theorem string_append_ne_self (s t : String) (h : t.length ≠ 0) : s ++ t ≠ s := by
  intro hh
  have hl : (s ++ t).length = s.length := by rw [hh]
  rw [String.length_append] at hl
  omega

theorem annKey_rename_ne_svc (m : Manifest) (svcName : String) (a : EdmxAnnot)
    (hm : dsKeys m = []) :
    annKey (renameAnnot (some m) svcName a) ≠ svcName := by
  simp only [renameAnnot, hm, List.any_nil, Bool.or_false]
  by_cases hk : annKey a = svcName
  · rw [if_pos (by simp [hk])]
    show annKey a ++ "_Annotation" ≠ svcName
    rw [hk]
    exact string_append_ne_self svcName "_Annotation" (by decide)
  · rw [if_neg (by simp [hk])]
    exact hk

theorem fsRead_writeAnnotationXmlFiles_ne (fs : Fs) (bp : FsPath) (sn : String)
    (anns : List EdmxAnnot) (q : FsPath) (h : q.length ≠ bp.length + 4) :
    fsRead (writeAnnotationXmlFiles fs bp sn anns) q = fsRead fs q := by
  induction anns generalizing fs with
  | nil => rfl
  | cons a anns ih =>
    unfold writeAnnotationXmlFiles
    rw [List.foldl_cons]
    cases hx : a.xml with
    | none => exact ih fs
    | some x =>
      refine (ih _).trans ?_
      apply fsRead_fsWrite_ne
      apply ne_of_length_ne
      intro hh
      rw [hh] at h
      simp [List.length_append] at h

theorem fsRead_writeLocalServiceFiles_ne (fs : Fs) (bp : FsPath)
    (service : OdataService) (q : FsPath) (h4 : q.length ≠ bp.length + 4)
    (h3 : q.length ≠ bp.length + 3) :
    fsRead (writeLocalServiceFiles fs bp (getWebappPath bp) service) q = fsRead fs q := by
  unfold writeLocalServiceFiles
  have hq1 : q ≠ getWebappPath bp ++ ["localService", effectiveName service, "metadata.xml"] := by
    apply ne_of_length_ne
    intro hh
    rw [hh] at h4
    simp [getWebappPath, List.length_append] at h4
  cases hl : service.localAnnotationsName with
  | none =>
    exact fsRead_fsWrite_ne fs _ q _ hq1
  | some n =>
    have hq2 : q ≠ bp ++ ["webapp", "annotations", n ++ ".xml"] := by
      apply ne_of_length_ne
      intro hh
      rw [hh] at h3
      simp [List.length_append] at h3
    exact (fsRead_fsWrite_ne _ _ q _ hq2).trans (fsRead_fsWrite_ne fs _ q _ hq1)

theorem cds_path_ne_manifest (bp : FsPath) (x : String) :
    (["cds", x ++ ".cds"] : FsPath) ≠ bp ++ ["webapp", "manifest.json"] := by
  cases bp with
  | nil =>
    intro hh
    injection hh with h1 _
    exact absurd h1 (by decide)
  | cons b bp =>
    apply ne_of_length_ne
    simp [List.length_append]

theorem enhanceData_path (bp : FsPath) (s : OdataService) (fs : Fs) :
    (enhanceData bp s fs).path = some (normalizePath s.path) := by
  simp [enhanceData]

theorem enhanceData_type (bp : FsPath) (s : OdataService) (fs : Fs) :
    (enhanceData bp s fs).type = s.type := by
  simp [enhanceData]

theorem enhanceData_metadata (bp : FsPath) (s : OdataService) (fs : Fs) :
    (enhanceData bp s fs).metadata = s.metadata := by
  simp [enhanceData]

theorem enhanceData_localAnns (bp : FsPath) (s : OdataService) (fs : Fs) :
    (enhanceData bp s fs).localAnnotationsName = s.localAnnotationsName := by
  simp [enhanceData]

theorem enhanceData_name (bp : FsPath) (s : OdataService) (fs : Fs) :
    (enhanceData bp s fs).name = defaultServiceName (readManifestOpt bp fs) s.name := by
  simp [enhanceData]

theorem enhanceData_annotations (bp : FsPath) (s : OdataService) (fs : Fs) :
    (enhanceData bp s fs).annotations =
      s.annotations.map (renameAnnot (readManifestOpt bp fs)
        ((defaultServiceName (readManifestOpt bp fs) s.name).getD "mainService")) := by
  simp [enhanceData]

theorem enhanceData_model (bp : FsPath) (s : OdataService) (fs : Fs) :
    (enhanceData bp s fs).model =
      some (defaultServiceModel (readManifestOpt bp fs) s.model
        ((defaultServiceName (readManifestOpt bp fs) s.name).getD "mainService")) := by
  simp [enhanceData]

theorem readManifestOpt_eq (bp : FsPath) (fs : Fs) (m : Manifest)
    (hread : fsRead fs (bp ++ ["webapp", "manifest.json"]) = some (.manifest m)) :
    readManifestOpt bp fs = some m := by
  unfold readManifestOpt
  rw [hread]

theorem updateManifest_ok (bp : FsPath) (s : OdataService) (fs : Fs) (m : Manifest)
    (hread : fsRead fs (bp ++ ["webapp", "manifest.json"]) = some (.manifest m))
    (hid : ¬ (m.appId.getD "" = "")) :
    updateManifest bp s fs =
      .ok (fsWrite (migrateFlatLayout (getWebappPath bp) (effectiveName s) m fs).2
        (bp ++ ["webapp", "manifest.json"])
        (.manifest (mergedManifest s (migrateFlatLayout (getWebappPath bp) (effectiveName s) m fs).1))) := by
  have hmp : getWebappPath bp ++ ["manifest.json"] = bp ++ ["webapp", "manifest.json"] := by
    simp [getWebappPath]
  unfold updateManifest
  rw [hmp]
  simp only [hread, if_neg hid]

theorem migrateFlatLayout_empty (webapp : FsPath) (newName : String)
    (m : Manifest) (fs : Fs) (hempty : m.dataSources = []) :
    migrateFlatLayout webapp newName m fs = (m, fs) := by
  unfold migrateFlatLayout odataEntries
  rw [hempty]
  rfl

theorem fsRead_updateCds_manifest (fs : Fs) (anns : List EdmxAnnot) (bp : FsPath) :
    fsRead (updateCdsFilesWithAnnotations fs anns) (bp ++ ["webapp", "manifest.json"]) =
      fsRead fs (bp ++ ["webapp", "manifest.json"]) := by
  induction anns generalizing fs with
  | nil => rfl
  | cons a anns ih =>
    unfold updateCdsFilesWithAnnotations
    rw [List.foldl_cons]
    show fsRead (updateCdsFilesWithAnnotations (fsWrite fs _ _) anns) _ = _
    rw [ih (fsWrite fs _ _)]
    exact fsRead_fsWrite_ne fs _ _ _ (fun hh => cds_path_ne_manifest bp (annKey a) hh.symm)

theorem generate_no_yaml (basePath : FsPath) (service : OdataService) (fs : Fs)
    (m : Manifest)
    (hread : fsRead fs (basePath ++ ["webapp", "manifest.json"]) = some (.manifest m))
    (hid : ¬ (m.appId.getD "" = ""))
    (hpaths : findProjectFiles basePath fs = {}) :
    generate basePath service fs =
      (.ok (), noYamlPostFs basePath (enhanceData basePath service fs) m fs) := by
  have hex : fsExists fs (basePath ++ ["webapp", "manifest.json"]) = true := by
    rw [fsExists_eq_isSome, hread]
    rfl
  unfold generate ensureExists
  simp only [List.find?, hex, Bool.not_true, hpaths]
  rw [updateManifest_ok basePath (enhanceData basePath service fs) fs m hread hid]
  simp only []
  unfold noYamlPostFs
  by_cases htype : (enhanceData basePath service fs).type = ServiceType.edmx
  · rw [if_pos htype, if_pos htype]
    unfold writeEDMXServiceFiles writeEDMXRest
    simp only []
    cases hmeta : (enhanceData basePath service fs).metadata with
    | some x => simp [hmeta]
    | none => simp [hmeta]
  · rw [if_neg htype, if_neg htype]
    by_cases hanns : (enhanceData basePath service fs).annotations.isEmpty
    · simp [hanns]
    · simp [hanns]

/-! ## Claim C7 -/

/-- C7: for every descriptor without a name applied to a manifest whose
data-source table is empty, the enhancement assigns the name `mainService`
and normalizes the path to end with `/`, so the resulting manifest entry
under `dataSources.mainService` has `uri` equal to the normalized path; a
descriptor whose path is absent is enhanced to path `/` without failing. -/
theorem claim7_naming_and_path_defaults (basePath : FsPath)
    (service : OdataService) (fs : Fs) (m : Manifest)
    (hname : service.name = none)
    (hread : fsRead fs (basePath ++ ["webapp", "manifest.json"]) = some (.manifest m))
    (hempty : m.dataSources = [])
    (hid : ¬ (m.appId.getD "" = ""))
    (hpaths : findProjectFiles basePath fs = {}) :
    (enhanceData basePath service fs).name = some "mainService" ∧
    (enhanceData basePath service fs).path = some (normalizePath service.path) ∧
    (enhanceData basePath { service with path := none } fs).path = some "/" ∧
    (generate basePath service fs).1 = .ok () ∧
    (∃ m1, fsRead (generate basePath service fs).2 (basePath ++ ["webapp", "manifest.json"]) =
        some (.manifest m1) ∧
      ∃ d, lookupDS m1 "mainService" = some d ∧ d.uri = normalizePath service.path) := by
  have hro : readManifestOpt basePath fs = some m := readManifestOpt_eq _ _ _ hread
  have hdsn2 : defaultServiceName (some m) service.name = some "mainService" := by
    rw [hname]
    unfold defaultServiceName
    simp [hempty]
  have hdsn : defaultServiceName (readManifestOpt basePath fs) service.name = some "mainService" := by
    rw [hro]
    exact hdsn2
  have hEname : (enhanceData basePath service fs).name = some "mainService" := by
    rw [enhanceData_name, hdsn]
  have heff : effectiveName (enhanceData basePath service fs) = "mainService" := by
    unfold effectiveName
    rw [hEname]
    rfl
  have hdsk : dsKeys m = [] := by
    unfold dsKeys
    rw [hempty]
    rfl
  have hkeys : ∀ a ∈ (enhanceData basePath service fs).annotations, annKey a ≠ "mainService" := by
    intro a ha
    rw [enhanceData_annotations, hro, hdsn2] at ha
    obtain ⟨b, _, rfl⟩ := List.mem_map.mp ha
    exact annKey_rename_ne_svc m ((some "mainService").getD "mainService") b hdsk
  have hmig := migrateFlatLayout_empty (getWebappPath basePath)
    (effectiveName (enhanceData basePath service fs)) m fs hempty
  have hgen := generate_no_yaml basePath service fs m hread hid hpaths
  refine ⟨hEname, enhanceData_path basePath service fs, by rw [enhanceData_path]; rfl, ?_, ?_⟩
  · rw [hgen]
  · rw [hgen]
    have hlook : lookupDS (mergedManifest (enhanceData basePath service fs) m) "mainService" =
        some (serviceDataSource (enhanceData basePath service fs) "mainService"
          (lookupDS m "mainService")) := by
      unfold mergedManifest
      rw [heff]
      simp only []
      rw [lookupDS_bindModel, lookupDS_foldl_ann _ _ _ hkeys]
      exact lookupDS_upsert_self m m.dataSources "mainService" _ m.models
    refine ⟨mergedManifest (enhanceData basePath service fs) m, ?_, ?_⟩
    · show fsRead (noYamlPostFs basePath (enhanceData basePath service fs) m fs) _ = _
      unfold noYamlPostFs
      rw [hmig]
      simp only []
      have hlen2 : (basePath ++ ["webapp", "manifest.json"] : FsPath).length =
          basePath.length + 2 := by
        simp [List.length_append]
      have h4 : (basePath ++ ["webapp", "manifest.json"] : FsPath).length ≠
          basePath.length + 4 := by omega
      have h3 : (basePath ++ ["webapp", "manifest.json"] : FsPath).length ≠
          basePath.length + 3 := by omega
      by_cases htype : (enhanceData basePath service fs).type = ServiceType.edmx
      · rw [if_pos htype]
        cases hmeta : (enhanceData basePath service fs).metadata with
        | some x =>
          rw [if_pos (show ((some x : Option String)).isSome = true from rfl)]
          rw [fsRead_writeAnnotationXmlFiles_ne _ _ _ _ _ h4]
          rw [fsRead_writeLocalServiceFiles_ne _ _ _ _ h4 h3]
          exact fsRead_fsWrite_self fs _ _
        | none =>
          rw [if_neg (show ¬ (((none : Option String)).isSome = true) from by simp)]
          rw [fsRead_writeAnnotationXmlFiles_ne _ _ _ _ _ h4]
          exact fsRead_fsWrite_self fs _ _
      · rw [if_neg htype]
        by_cases hanns : (enhanceData basePath service fs).annotations.isEmpty
        · rw [if_neg (by simp [hanns])]
          exact fsRead_fsWrite_self fs _ _
        · rw [if_pos (by simp [hanns])]
          rw [fsRead_updateCds_manifest]
          exact fsRead_fsWrite_self fs _ _
    · refine ⟨_, hlook, ?_⟩
      unfold serviceDataSource
      simp only []
      rw [enhanceData_path]
      rfl

/-- Witness for C7: the Northwind example - input path
`/V2/Northwind/Northwind.svc` yields the manifest entry
`dataSources.mainService` with uri `/V2/Northwind/Northwind.svc/`, and the
path-less variant is enhanced to path `/`. -/
theorem claim7_witness :
    (enhanceData ["p"] northwindSvc manifestOnlyFs).name = some "mainService" ∧
    (enhanceData ["p"] northwindNoPath manifestOnlyFs).path = some "/" ∧
    (∃ m1, fsRead (generate ["p"] northwindSvc manifestOnlyFs).2
        ["p", "webapp", "manifest.json"] = some (.manifest m1) ∧
      ∃ d, lookupDS m1 "mainService" = some d ∧
        d.uri = "/V2/Northwind/Northwind.svc/") := by
  have h := claim7_naming_and_path_defaults ["p"] northwindSvc manifestOnlyFs
    manifestFixture rfl (by decide) rfl (by decide) (by decide)
  have h2 := claim7_naming_and_path_defaults ["p"] northwindNoPath manifestOnlyFs
    manifestFixture rfl (by decide) rfl (by decide) (by decide)
  refine ⟨h.1, ?_, ?_⟩
  · have h3 := h2.2.2.1
    have hps : ({ northwindNoPath with path := none } : OdataService) = northwindNoPath := rfl
    rw [hps] at h3
    exact h3
  · have h5 := h.2.2.2.2
    have hnp : normalizePath northwindSvc.path = "/V2/Northwind/Northwind.svc/" := by decide
    rw [hnp] at h5
    have hmp : (["p"] ++ ["webapp", "manifest.json"] : FsPath) = ["p", "webapp", "manifest.json"] := rfl
    rw [hmp] at h5
    exact h5

/-! ## Claim C8 -/

/-- C8: an annotation whose key (its name, falling back to its technical
name) collides with an existing manifest key or with the name of the
service itself is deterministically renamed by appending the suffix
`_Annotation`; for a collision with the service name the rename and the
resulting manifest annotation entry do not depend on the manifest state at
all, so repeated runs converge to the same entry. -/
theorem claim8_annotation_collision_rename (m : Manifest) (n : String)
    (a : EdmxAnnot) (hcoll : annKey a = n ∨ annKey a ∈ dsKeys m) :
    (renameAnnot (some m) n a = { a with name := some (annKey a ++ "_Annotation") }) ∧
    (annKey (renameAnnot (some m) n a) = annKey a ++ "_Annotation") ∧
    (∀ m' : Manifest, annKey a = n →
      renameAnnot (some m') n a = { a with name := some (annKey a ++ "_Annotation") } ∧
      annDataSource n (renameAnnot (some m') n a) = annDataSource n (renameAnnot (some m) n a)) := by
  have hcb : (decide (annKey a = n) ||
      (dsKeys m).any (fun x => decide (x = annKey a))) = true := by
    rcases hcoll with h | h
    · simp [h]
    · apply Bool.or_eq_true_iff.mpr
      right
      rw [List.any_eq_true]
      exact ⟨annKey a, h, by simp⟩
  have h1 : renameAnnot (some m) n a = { a with name := some (annKey a ++ "_Annotation") } := by
    unfold renameAnnot
    simp only []
    rw [if_pos hcb]
  refine ⟨h1, ?_, ?_⟩
  · rw [h1]
    rfl
  · intro m' hown
    have h2 : renameAnnot (some m') n a = { a with name := some (annKey a ++ "_Annotation") } := by
      unfold renameAnnot
      simp only []
      rw [if_pos (by simp [hown])]
    refine ⟨h2, ?_⟩
    rw [h1, h2]

/-- Witness for C8: the test example - service name `aname` with an
annotation also named `aname` (against a manifest holding an unrelated
service) yields the annotation renamed to `aname_Annotation`, and the
rename is the same against any other manifest. -/
theorem claim8_witness :
    renameAnnot (some collManifest) "aname" ⟨some "aname", "aname", none⟩ =
      ⟨some "aname_Annotation", "aname", none⟩ ∧
    renameAnnot (some manifestFixture) "aname" ⟨some "aname", "aname", none⟩ =
      ⟨some "aname_Annotation", "aname", none⟩ := by
  constructor
  · exact (claim8_annotation_collision_rename collManifest "aname"
      ⟨some "aname", "aname", none⟩ (Or.inl rfl)).1
  · exact ((claim8_annotation_collision_rename collManifest "aname"
      ⟨some "aname", "aname", none⟩ (Or.inl rfl)).2.2 manifestFixture rfl).1

/-! ## Migration and write preservation lemmas -/

theorem append_ne_of_ne {α : Type} (bp : List α) (l1 l2 : List α) (h : l1 ≠ l2) :
    bp ++ l1 ≠ bp ++ l2 :=
  fun hh => h (List.append_cancel_left hh)

theorem splitSlashAux_ne_nil (cs cur : List Char) : splitSlashAux cs cur ≠ [] := by
  induction cs generalizing cur with
  | nil => simp [splitSlashAux]
  | cons c rest ih =>
    unfold splitSlashAux
    by_cases hc : c = '/'
    · simp [hc]
    · simp only [hc, if_neg]
      exact ih (c :: cur)

theorem splitSlash_length_pos (s : String) : 0 < (splitSlash s).length := by
  unfold splitSlash
  cases h : splitSlashAux s.data [] with
  | nil => exact absurd h (splitSlashAux_ne_nil s.data [])
  | cons a l => simp

theorem uriToPath_long (w : FsPath) (u : String) (q : FsPath)
    (h : q.length < w.length + 1) : q ≠ uriToPath w u := by
  apply ne_of_length_ne
  unfold uriToPath
  rw [List.length_append]
  have := splitSlash_length_pos u
  omega

theorem fsRead_moveFile_short (fs : Fs) (src dst q : FsPath)
    (h1 : q ≠ src) (h2 : q ≠ dst) :
    fsRead (moveFile fs src dst) q = fsRead fs q := by
  unfold moveFile
  cases hr : fsRead fs src with
  | none => rfl
  | some c =>
    rw [fsRead_fsWrite_ne _ _ _ _ h2, fsRead_fsDelete_ne _ _ _ h1]

theorem fsRead_migrateOne_snd (w : FsPath) (svcKey : String)
    (st : Manifest × Fs) (k : String) (q : FsPath) (h : q.length < w.length + 1) :
    fsRead (migrateOne w svcKey st k).2 q = fsRead st.2 q := by
  unfold migrateOne
  dsimp only
  split
  · split
    · split
      · exact fsRead_moveFile_short _ _ _ q (uriToPath_long w _ q h)
          (uriToPath_long w _ q h)
      · rfl
    · rfl
  · rfl

theorem fsRead_migrateFold_snd (w : FsPath) (svcKey : String) (ks : List String)
    (st : Manifest × Fs) (q : FsPath) (h : q.length < w.length + 1) :
    fsRead ((ks.foldl (migrateOne w svcKey) st).2) q = fsRead st.2 q := by
  induction ks generalizing st with
  | nil => rfl
  | cons k ks ih =>
    rw [List.foldl_cons]
    rw [ih (migrateOne w svcKey st k)]
    exact fsRead_migrateOne_snd w svcKey st k q h

theorem fsRead_migrateFlatLayout_snd (w : FsPath) (n : String) (m : Manifest)
    (fs : Fs) (q : FsPath) (h : q.length < w.length + 1) :
    fsRead (migrateFlatLayout w n m fs).2 q = fsRead fs q := by
  unfold migrateFlatLayout
  split
  · split
    · exact fsRead_migrateFold_snd w _ _ (m, fs) q h
    · rfl
  · rfl

theorem fsExists_writeAnnotationXmlFiles_ne (fs : Fs) (bp : FsPath) (sn : String)
    (anns : List EdmxAnnot) (q : FsPath) (h : q.length ≠ bp.length + 4) :
    fsExists (writeAnnotationXmlFiles fs bp sn anns) q = fsExists fs q := by
  rw [fsExists_eq_isSome, fsExists_eq_isSome,
    fsRead_writeAnnotationXmlFiles_ne fs bp sn anns q h]

theorem extendBackendYaml_ok (s : OdataService) (y : UI5Yaml) :
    ∃ cfg, extendBackendYaml s y = .ok cfg := by
  cases hp : y.proxy with
  | none =>
    refine ⟨addFioriToolsProxydMiddleware y [s.previewSettings.getD emptyBackend]
      s.ignoreCertError, ?_⟩
    unfold extendBackendYaml addBackendToFioriToolsProxydMiddleware
    rw [hp]
    unfold extendBackendApply
    simp [DocError.isNodeNotFound]
  | some p =>
    refine ⟨⟨some ⟨p.ignoreCertError, upsertBackend p.backend (s.previewSettings.getD emptyBackend)⟩, y.mock⟩, ?_⟩
    unfold extendBackendYaml addBackendToFioriToolsProxydMiddleware
    rw [hp]
    unfold extendBackendApply
    simp

theorem generate_yaml_only_no_metadata (basePath : FsPath) (service : OdataService)
    (fs : Fs) (m : Manifest) (y : UI5Yaml) (cfg : UI5Yaml)
    (hread : fsRead fs (basePath ++ ["webapp", "manifest.json"]) = some (.manifest m))
    (hid : ¬ (m.appId.getD "" = ""))
    (hpaths : findProjectFiles basePath fs =
      { packageJson := none, ui5Yaml := some (basePath ++ ["ui5.yaml"]),
        ui5LocalYaml := none, ui5MockYaml := none })
    (hy : fsRead fs (basePath ++ ["ui5.yaml"]) = some (.yaml y))
    (hmeta : service.metadata = none)
    (htype : service.type = ServiceType.edmx)
    (hcfg : extendBackendYaml (enhanceData basePath service fs) y = .ok cfg) :
    generate basePath service fs =
      (.ok (), writeAnnotationXmlFiles
        (fsWrite
          (fsWrite
            (migrateFlatLayout (getWebappPath basePath)
              (effectiveName (enhanceData basePath service fs)) m fs).2
            (basePath ++ ["webapp", "manifest.json"])
            (.manifest (mergedManifest (enhanceData basePath service fs)
              (migrateFlatLayout (getWebappPath basePath)
                (effectiveName (enhanceData basePath service fs)) m fs).1)))
          (basePath ++ ["ui5.yaml"]) (.yaml cfg))
        basePath (effectiveName (enhanceData basePath service fs))
        (enhanceData basePath service fs).annotations) := by
  have hex : fsExists fs (basePath ++ ["webapp", "manifest.json"]) = true := by
    rw [fsExists_eq_isSome, hread]
    rfl
  have henh_meta : (enhanceData basePath service fs).metadata = none := by
    rw [enhanceData_metadata, hmeta]
  have henh_type : (enhanceData basePath service fs).type = ServiceType.edmx := by
    rw [enhanceData_type, htype]
  have hyp_ne_mp : (basePath ++ ["ui5.yaml"] : FsPath) ≠
      basePath ++ ["webapp", "manifest.json"] := by
    apply ne_of_length_ne
    simp [List.length_append]
  have hry : readYaml
      (fsWrite (migrateFlatLayout (getWebappPath basePath)
          (effectiveName (enhanceData basePath service fs)) m fs).2
        (basePath ++ ["webapp", "manifest.json"])
        (.manifest (mergedManifest (enhanceData basePath service fs)
          (migrateFlatLayout (getWebappPath basePath)
            (effectiveName (enhanceData basePath service fs)) m fs).1)))
      (basePath ++ ["ui5.yaml"]) = .ok y := by
    unfold readYaml
    rw [fsRead_fsWrite_ne _ _ _ _ hyp_ne_mp]
    rw [fsRead_migrateFlatLayout_snd _ _ _ _ _ (by simp [getWebappPath]), hy]
  unfold generate ensureExists
  simp only [List.find?, hex, Bool.not_true, hpaths]
  rw [updateManifest_ok basePath (enhanceData basePath service fs) fs m hread hid]
  simp only []
  rw [if_pos henh_type]
  unfold writeEDMXServiceFiles
  dsimp only
  rw [hry]
  dsimp only
  unfold extendBackendMiddleware
  rw [hcfg]
  dsimp only
  unfold writeEDMXRest
  rw [henh_meta]

/-! ## Claim C6 -/

/-- Counterexample to C6 as stated: a descriptor without metadata still has
its backend entry written into ui5.yaml by generate (the backend
synchronizer runs before and independently of the metadata check of
`writeEDMXServiceFiles`), exactly as the unit test for a service without
metadata expects. -/
theorem claim6_counterexample :
    svcNoMetadata.metadata = none ∧
    (generate ["p"] svcNoMetadata yamlProjectFs).1 = .ok () ∧
    fsRead (generate ["p"] svcNoMetadata yamlProjectFs).2 ["p", "ui5.yaml"] =
      some (.yaml ⟨some ⟨false,
        [⟨some "/sap", some "http://localhost", some "012", none, none, none, none⟩]⟩,
        none⟩) := by
  refine ⟨rfl, rfl, by decide⟩

/-- C6 amended: during generate for an EDMX service, the backend
synchronizer is applied to ui5.yaml whenever the file is present,
regardless of metadata; only the mock-server side is metadata-guarded: for
a descriptor without metadata, no ui5-mock.yaml is created and no
mock-server entry is written. -/
theorem claim6_backend_not_metadata_guarded (basePath : FsPath)
    (service : OdataService) (fs : Fs) (m : Manifest) (y : UI5Yaml)
    (hread : fsRead fs (basePath ++ ["webapp", "manifest.json"]) = some (.manifest m))
    (hid : ¬ (m.appId.getD "" = ""))
    (hpaths : findProjectFiles basePath fs =
      { packageJson := none, ui5Yaml := some (basePath ++ ["ui5.yaml"]),
        ui5LocalYaml := none, ui5MockYaml := none })
    (hy : fsRead fs (basePath ++ ["ui5.yaml"]) = some (.yaml y))
    (hmeta : service.metadata = none)
    (htype : service.type = ServiceType.edmx)
    (hnomock : fsExists fs (basePath ++ ["ui5-mock.yaml"]) = false) :
    (generate basePath service fs).1 = .ok () ∧
    (∃ cfg, extendBackendYaml (enhanceData basePath service fs) y = .ok cfg ∧
      fsRead (generate basePath service fs).2 (basePath ++ ["ui5.yaml"]) =
        some (.yaml cfg)) ∧
    fsExists (generate basePath service fs).2 (basePath ++ ["ui5-mock.yaml"]) = false := by
  obtain ⟨cfg, hcfg⟩ := extendBackendYaml_ok (enhanceData basePath service fs) y
  have hgen := generate_yaml_only_no_metadata basePath service fs m y cfg hread hid
    hpaths hy hmeta htype hcfg
  have hlen_yp : (basePath ++ ["ui5.yaml"] : FsPath).length = basePath.length + 1 := by
    simp [List.length_append]
  have hlen_mk : (basePath ++ ["ui5-mock.yaml"] : FsPath).length = basePath.length + 1 := by
    simp [List.length_append]
  refine ⟨by rw [hgen], ⟨cfg, hcfg, ?_⟩, ?_⟩
  · rw [hgen]
    show fsRead (writeAnnotationXmlFiles _ _ _ _) _ = _
    rw [fsRead_writeAnnotationXmlFiles_ne _ _ _ _ _ (by omega)]
    exact fsRead_fsWrite_self _ _ _
  · rw [hgen]
    show fsExists (writeAnnotationXmlFiles _ _ _ _) _ = _
    rw [fsExists_writeAnnotationXmlFiles_ne _ _ _ _ _ (by omega)]
    rw [fsExists_fsWrite]
    rw [fsExists_fsWrite]
    have h1 : ¬ ((basePath ++ ["ui5-mock.yaml"] : FsPath) = basePath ++ ["ui5.yaml"]) :=
      append_ne_of_ne _ _ _ (by decide)
    have h2 : ¬ ((basePath ++ ["ui5-mock.yaml"] : FsPath) =
        basePath ++ ["webapp", "manifest.json"]) := by
      apply ne_of_length_ne
      simp [List.length_append]
    have h3 : fsExists (migrateFlatLayout (getWebappPath basePath)
        (effectiveName (enhanceData basePath service fs)) m fs).2
        (basePath ++ ["ui5-mock.yaml"]) = false := by
      rw [fsExists_eq_isSome]
      rw [fsRead_migrateFlatLayout_snd _ _ _ _ _ (by simp [getWebappPath])]
      rw [← fsExists_eq_isSome]
      exact hnomock
    simp [h1, h2, h3]

/-- Witness for C6: the concrete project of the counterexample satisfies
the amended claim - the backend entry lands in ui5.yaml and no
ui5-mock.yaml appears. -/
theorem claim6_witness :
    (generate ["p"] svcNoMetadata yamlProjectFs).1 = .ok () ∧
    (∃ cfg, extendBackendYaml (enhanceData ["p"] svcNoMetadata yamlProjectFs)
        emptyProxyYaml = .ok cfg ∧
      fsRead (generate ["p"] svcNoMetadata yamlProjectFs).2 (["p"] ++ ["ui5.yaml"]) =
        some (.yaml cfg)) ∧
    fsExists (generate ["p"] svcNoMetadata yamlProjectFs).2
      (["p"] ++ ["ui5-mock.yaml"]) = false :=
  claim6_backend_not_metadata_guarded ["p"] svcNoMetadata yamlProjectFs
    manifestFixture emptyProxyYaml (by decide) (by decide) (by decide) (by decide)
    rfl rfl (by decide)

/-! ## Claim C5 -/

theorem yaml_set_proxy_self (y : UI5Yaml) (p : ProxyMiddleware)
    (h : y.proxy = some p) : ({ y with proxy := some p } : UI5Yaml) = y := by
  cases y with
  | mk pr mo =>
    simp only at h
    subst h
    rfl

theorem yaml_set_mock_self (y : UI5Yaml) (mm : MockMiddleware)
    (h : y.mock = some mm) : ({ y with mock := some mm } : UI5Yaml) = y := by
  cases y with
  | mk pr mo =>
    simp only at h
    subst h
    rfl

theorem removeBackend_noop (y : UI5Yaml) (url : String)
    (h : urlNotInBackend y url) : removeBackendFromProxyMiddleware y url = y := by
  cases hp : y.proxy with
  | none =>
    unfold removeBackendFromProxyMiddleware
    rw [hp]
  | some p =>
    have hfe : p.backend.filter (fun e => !(decide (e.url = some url))) = p.backend := by
      apply List.filter_eq_self.mpr
      intro e he
      have hne := h p hp e he
      simp [hne]
    simp only [removeBackendFromProxyMiddleware, hp]
    rw [hfe]
    exact yaml_set_proxy_self y p hp

theorem removeMock_noop (y : UI5Yaml) (path : String) (annPaths : List String)
    (h : pathNotInMock y path annPaths) :
    removeServiceFromMockMiddleware y path annPaths = y := by
  cases hm : y.mock with
  | none =>
    unfold removeServiceFromMockMiddleware
    rw [hm]
  | some mm =>
    have h1 : mm.services.filter (fun e => !(decide (e.servicePath = path))) = mm.services := by
      apply List.filter_eq_self.mpr
      intro e he
      have hne := (h mm hm).1 e he
      simp [hne]
    have h2 : mm.annotations.filter (fun u => !(annPaths.any (fun x => decide (x = u)))) =
        mm.annotations := by
      apply List.filter_eq_self.mpr
      intro u hu
      have hnu := (h mm hm).2 u hu
      cases hb : annPaths.any (fun x => decide (x = u)) with
      | false => rfl
      | true =>
        exfalso
        obtain ⟨x, hx, hdx⟩ := List.any_eq_true.mp hb
        simp only [decide_eq_true_eq] at hdx
        exact hnu (hdx ▸ hx)
    simp only [removeServiceFromMockMiddleware, hm]
    rw [h1, h2]
    exact yaml_set_mock_self y mm hm

theorem removeAnnotationXmlFiles_noop (fs : Fs) (bp : FsPath) (sn : String)
    (anns : List EdmxAnnot)
    (h : ∀ a ∈ anns, fsExists fs
      (bp ++ ["webapp", "localService", sn, a.technicalName ++ ".xml"]) = false) :
    removeAnnotationXmlFiles fs bp sn anns = fs := by
  induction anns with
  | nil => rfl
  | cons a anns ih =>
    unfold removeAnnotationXmlFiles
    rw [List.foldl_cons]
    rw [if_neg (by simp [h a (List.mem_cons_self a anns)])]
    exact ih (fun x hx => h x (List.mem_cons_of_mem a hx))

theorem deleteService_unknown_noop (bp : FsPath) (fs : Fs) (m : Manifest) (n : String)
    (hread : fsRead fs (bp ++ ["webapp", "manifest.json"]) = some (.manifest m))
    (hunknown : lookupDS m n = none) :
    deleteServiceFromManifest bp n fs = fs := by
  have hmp : getWebappPath bp ++ ["manifest.json"] = bp ++ ["webapp", "manifest.json"] := by
    simp [getWebappPath]
  unfold deleteServiceFromManifest
  rw [hmp]
  simp only [hread, hunknown]

/-- Counterexample to C5 as stated: a descriptor whose service name is
absent from the manifest but whose url matches an existing backend entry
still rewrites ui5.yaml - remove deletes backend entries by url, without
consulting the manifest. -/
theorem claim5_counterexample :
    lookupDS remManifest "dummyService" = none ∧
    (remove ["t"] dummySvcMatchingUrl remProjectFs).1 = .ok () ∧
    fsRead (remove ["t"] dummySvcMatchingUrl remProjectFs).2 ["t", "ui5.yaml"] ≠
      fsRead remProjectFs ["t", "ui5.yaml"] := by
  refine ⟨rfl, rfl, by decide⟩

/-- C5 amended: remove with a service name absent from the data-source
table raises no error and leaves the whole staged filesystem unchanged,
provided none of its match keys hits either: its url matches no backend
entry, its path and annotation catalog paths match no mock entry, and no
staged local annotation file of that name exists. -/
theorem claim5_unknown_removal_noop (basePath : FsPath) (service : OdataService)
    (fs : Fs) (m : Manifest)
    (hnd : (fs.map Prod.fst).Nodup)
    (hread : fsRead fs (basePath ++ ["webapp", "manifest.json"]) = some (.manifest m))
    (hunknown : lookupDS m (effectiveName service) = none)
    (htype : service.type = ServiceType.edmx)
    (hy1 : ∀ p, (findProjectFiles basePath fs).ui5Yaml = some p →
      ∃ y, fsRead fs p = some (.yaml y) ∧ urlNotInBackend y (service.url.getD ""))
    (hy2 : ∀ p, (findProjectFiles basePath fs).ui5LocalYaml = some p →
      ∃ y, fsRead fs p = some (.yaml y) ∧ urlNotInBackend y (service.url.getD "") ∧
        pathNotInMock y (service.path.getD "") (getEDMXAnnotationPaths service.annotations))
    (hy3 : ∀ p, (findProjectFiles basePath fs).ui5MockYaml = some p →
      ∃ y, fsRead fs p = some (.yaml y) ∧ urlNotInBackend y (service.url.getD "") ∧
        pathNotInMock y (service.path.getD "") (getEDMXAnnotationPaths service.annotations))
    (hnofiles : ∀ a ∈ service.annotations, fsExists fs
      (basePath ++ ["webapp", "localService", effectiveName service,
        a.technicalName ++ ".xml"]) = false) :
    remove basePath service fs = (.ok (), fs) := by
  unfold remove
  rw [deleteService_unknown_noop basePath fs m (effectiveName service) hread hunknown]
  rw [if_pos htype]
  have hstep1 : (match (findProjectFiles basePath fs).ui5Yaml with
      | some yp =>
        match readYaml fs yp with
        | .error e => (Except.error e, fs)
        | .ok y =>
          (Except.ok (), fsWrite fs yp
            (.yaml (removeBackendFromProxyMiddleware y (service.url.getD ""))))
      | none => (Except.ok (), fs)) = ((Except.ok () : Except GenError Unit), fs) := by
    cases hp : (findProjectFiles basePath fs).ui5Yaml with
    | none => rfl
    | some p =>
      obtain ⟨y, hry, hnb⟩ := hy1 p hp
      simp only [readYaml, hry]
      rw [removeBackend_noop y _ hnb]
      rw [fsWrite_noop fs p (.yaml y) hnd hry]
  rw [hstep1]
  dsimp only
  have hstep2 : (match (findProjectFiles basePath fs).ui5LocalYaml with
      | some lp =>
        match readYaml fs lp with
        | .error e => (Except.error e, fs)
        | .ok y =>
          (Except.ok (), fsWrite fs lp
            (.yaml (removeServiceFromMockMiddleware
              (removeBackendFromProxyMiddleware y (service.url.getD ""))
              (service.path.getD "") (getEDMXAnnotationPaths service.annotations))))
      | none => (Except.ok (), fs)) = ((Except.ok () : Except GenError Unit), fs) := by
    cases hp : (findProjectFiles basePath fs).ui5LocalYaml with
    | none => rfl
    | some p =>
      obtain ⟨y, hry, hnb, hnm⟩ := hy2 p hp
      simp only [readYaml, hry]
      rw [removeBackend_noop y _ hnb, removeMock_noop y _ _ hnm]
      rw [fsWrite_noop fs p (.yaml y) hnd hry]
  rw [hstep2]
  dsimp only
  have hstep3 : (match (findProjectFiles basePath fs).ui5MockYaml with
      | some mp =>
        match readYaml fs mp with
        | .error e => (Except.error e, fs)
        | .ok y =>
          (Except.ok (), fsWrite fs mp
            (.yaml (removeServiceFromMockMiddleware
              (removeBackendFromProxyMiddleware y (service.url.getD ""))
              (service.path.getD "") (getEDMXAnnotationPaths service.annotations))))
      | none => (Except.ok (), fs)) = ((Except.ok () : Except GenError Unit), fs) := by
    cases hp : (findProjectFiles basePath fs).ui5MockYaml with
    | none => rfl
    | some p =>
      obtain ⟨y, hry, hnb, hnm⟩ := hy3 p hp
      simp only [readYaml, hry]
      rw [removeBackend_noop y _ hnb, removeMock_noop y _ _ hnm]
      rw [fsWrite_noop fs p (.yaml y) hnd hry]
  rw [hstep3]
  dsimp only
  rw [removeAnnotationXmlFiles_noop fs basePath (effectiveName service)
    service.annotations hnofiles]

/-- Witness for C5 at the concrete project of the remove tests: removing
the unknown `dummyService` leaves the whole staged project unchanged. -/
theorem claim5_witness :
    remove ["t"] dummySvc remProjectFs = (.ok (), remProjectFs) := by
  apply claim5_unknown_removal_noop ["t"] dummySvc remProjectFs remManifest
  · decide
  · decide
  · decide
  · rfl
  · intro p hp
    have hpe : p = ["t", "ui5.yaml"] := by
      rw [show findProjectFiles ["t"] remProjectFs =
        ⟨some ["t", "package.json"], some ["t", "ui5.yaml"], some ["t", "ui5-local.yaml"],
          some ["t", "ui5-mock.yaml"]⟩ from by decide] at hp
      simpa using hp.symm
    subst hpe
    refine ⟨⟨some ⟨false, [remBackend]⟩, none⟩, by decide, ?_⟩
    intro pr hpr e he
    simp only [Option.some.injEq] at hpr
    subst hpr
    simp only [List.mem_singleton] at he
    subst he
    decide
  · intro p hp
    have hpe : p = ["t", "ui5-local.yaml"] := by
      rw [show findProjectFiles ["t"] remProjectFs =
        ⟨some ["t", "package.json"], some ["t", "ui5.yaml"], some ["t", "ui5-local.yaml"],
          some ["t", "ui5-mock.yaml"]⟩ from by decide] at hp
      simpa using hp.symm
    subst hpe
    refine ⟨remYaml, by decide, ?_, ?_⟩
    · intro pr hpr e he
      simp only [remYaml, Option.some.injEq] at hpr
      subst hpr
      simp only [List.mem_singleton] at he
      subst he
      decide
    · intro mm hmm
      simp only [remYaml, Option.some.injEq] at hmm
      subst hmm
      constructor
      · intro e he
        simp only [List.mem_singleton] at he
        subst he
        decide
      · intro u hu
        simp only [List.mem_singleton] at hu
        subst hu
        decide
  · intro p hp
    have hpe : p = ["t", "ui5-mock.yaml"] := by
      rw [show findProjectFiles ["t"] remProjectFs =
        ⟨some ["t", "package.json"], some ["t", "ui5.yaml"], some ["t", "ui5-local.yaml"],
          some ["t", "ui5-mock.yaml"]⟩ from by decide] at hp
      simpa using hp.symm
    subst hpe
    refine ⟨remYaml, by decide, ?_, ?_⟩
    · intro pr hpr e he
      simp only [remYaml, Option.some.injEq] at hpr
      subst hpr
      simp only [List.mem_singleton] at he
      subst he
      decide
    · intro mm hmm
      simp only [remYaml, Option.some.injEq] at hmm
      subst hmm
      constructor
      · intro e he
        simp only [List.mem_singleton] at he
        subst he
        decide
      · intro u hu
        simp only [List.mem_singleton] at hu
        subst hu
        decide
  · intro a ha
    simp only [dummySvc, List.mem_singleton] at ha
    subst ha
    decide

/-! ## Claim C4 -/

theorem triple_ne_mid (a x y xq yq : String) (h : x ≠ xq) :
    ([a, x, y] : FsPath) ≠ [a, xq, yq] := by
  intro hh
  injection hh with _ t
  injection t with hx _
  exact h hx

theorem pair_ne_snd (a y yq : String) (h : y ≠ yq) :
    ([a, y] : FsPath) ≠ [a, yq] := by
  intro hh
  injection hh with _ t
  injection t with hx _
  exact h hx

theorem migrateOne_eq (w : FsPath) (svcKey : String) (st : Manifest × Fs)
    (k : String) (ds : DataSource) (u : String)
    (hl : lookupDS st.1 k = some ds)
    (hu : ds.settings.localUri = some u)
    (hf : isFlatUri u = true) :
    migrateOne w svcKey st k =
      ({ st.1 with
          dataSources := upsertAssoc st.1.dataSources k
                           ⟨ds.type, ds.uri,
                             ⟨some (namespacedUri svcKey u), ds.settings.annotations,
                               ds.settings.odataVersion⟩⟩ },
        moveFile st.2 (uriToPath w u) (uriToPath w (namespacedUri svcKey u))) := by
  unfold migrateOne
  dsimp only
  rw [hl]
  dsimp only
  rw [hu]
  dsimp only
  rw [if_pos hf]

theorem isFlatUri_of_split (u f : String) (h : splitSlash u = ["localService", f]) :
    isFlatUri u = true := by
  unfold isFlatUri
  rw [h]
  rfl

theorem triple_ne_last (a x y yq : String) (h : y ≠ yq) :
    ([a, x, y] : FsPath) ≠ [a, x, yq] := by
  intro hh
  injection hh with _ t
  injection t with _ t2
  injection t2 with hy _
  exact h hy

theorem moveFile_eq (fs : Fs) (src dst : FsPath) (c : FileContent)
    (h : fsRead fs src = some c) :
    moveFile fs src dst = fsWrite (fsDelete fs src) dst c := by
  unfold moveFile
  rw [h]

theorem c4_migrate_eq (basePath : FsPath) (fs : Fs) (m : Manifest)
    (k1 a1 n2 f1 f2 u1 u2 : String) (ds1 annDs1 : DataSource) (c1 c2 : FileContent)
    (hds : m.dataSources = [(k1, ds1), (a1, annDs1)])
    (ht1 : ds1.type = DSType.odata)
    (ht2 : annDs1.type = DSType.odataAnnot)
    (hanns1 : ds1.settings.annotations = [a1])
    (hu1 : ds1.settings.localUri = some u1)
    (hu2 : annDs1.settings.localUri = some u2)
    (hsp1 : splitSlash u1 = ["localService", f1])
    (hsp2 : splitSlash u2 = ["localService", f2])
    (hspn1 : splitSlash (namespacedUri k1 u1) = ["localService", k1, f1])
    (hspn2 : splitSlash (namespacedUri k1 u2) = ["localService", k1, f2])
    (hc1 : fsRead fs (getWebappPath basePath ++ ["localService", f1]) = some c1)
    (hc2 : fsRead fs (getWebappPath basePath ++ ["localService", f2]) = some c2)
    (hk1n2 : k1 ≠ n2) (ha1k1 : a1 ≠ k1) (hf12 : f1 ≠ f2) :
    migrateFlatLayout (getWebappPath basePath) n2 m fs =
      ((⟨m.appId,
          [(k1, ⟨ds1.type, ds1.uri,
            ⟨some (namespacedUri k1 u1), ds1.settings.annotations,
              ds1.settings.odataVersion⟩⟩),
            (a1, ⟨annDs1.type, annDs1.uri,
              ⟨some (namespacedUri k1 u2), annDs1.settings.annotations,
                annDs1.settings.odataVersion⟩⟩)],
          m.models⟩ : Manifest),
        fsWrite
          (fsDelete (fsWrite (fsDelete fs (getWebappPath basePath ++ ["localService", f1]))
            (getWebappPath basePath ++ ["localService", k1, f1]) c1)
            (getWebappPath basePath ++ ["localService", f2]))
          (getWebappPath basePath ++ ["localService", k1, f2]) c2) := by
  have hk1a1 : ¬ (k1 = a1) := fun hh => ha1k1 hh.symm
  have e1 : uriToPath (getWebappPath basePath) u1 =
      getWebappPath basePath ++ ["localService", f1] := by
    unfold uriToPath
    rw [hsp1]
  have e1n : uriToPath (getWebappPath basePath) (namespacedUri k1 u1) =
      getWebappPath basePath ++ ["localService", k1, f1] := by
    unfold uriToPath
    rw [hspn1]
  have e2 : uriToPath (getWebappPath basePath) u2 =
      getWebappPath basePath ++ ["localService", f2] := by
    unfold uriToPath
    rw [hsp2]
  have e2n : uriToPath (getWebappPath basePath) (namespacedUri k1 u2) =
      getWebappPath basePath ++ ["localService", k1, f2] := by
    unfold uriToPath
    rw [hspn2]
  have hl1 : lookupDS m k1 = some ds1 := by
    unfold lookupDS
    rw [hds]
    simp
  have hm1 := migrateOne_eq (getWebappPath basePath) k1 (m, fs) k1 ds1 u1 hl1 hu1
    (isFlatUri_of_split u1 f1 hsp1)
  rw [e1, e1n, moveFile_eq fs _ _ c1 hc1] at hm1
  dsimp only at hm1
  have hup1 : upsertAssoc m.dataSources k1
      (⟨ds1.type, ds1.uri, ⟨some (namespacedUri k1 u1), ds1.settings.annotations,
        ds1.settings.odataVersion⟩⟩ : DataSource) =
      [(k1, ⟨ds1.type, ds1.uri, ⟨some (namespacedUri k1 u1), ds1.settings.annotations,
        ds1.settings.odataVersion⟩⟩), (a1, annDs1)] := by
    rw [hds]
    simp [upsertAssoc, ha1k1]
  rw [hup1] at hm1
  have hl2 : lookupDS ({ m with dataSources :=
      [(k1, ⟨ds1.type, ds1.uri, ⟨some (namespacedUri k1 u1), ds1.settings.annotations,
        ds1.settings.odataVersion⟩⟩), (a1, annDs1)] } : Manifest) a1 = some annDs1 := by
    unfold lookupDS
    simp [List.find?, hk1a1]
  have hc2s : fsRead (fsWrite (fsDelete fs (getWebappPath basePath ++ ["localService", f1]))
      (getWebappPath basePath ++ ["localService", k1, f1]) c1)
      (getWebappPath basePath ++ ["localService", f2]) = some c2 := by
    rw [fsRead_fsWrite_ne _ _ _ _ (by
      apply ne_of_length_ne
      simp [List.length_append])]
    rw [fsRead_fsDelete_ne _ _ _ (append_ne_of_ne _ _ _ (pair_ne_snd _ _ _ (Ne.symm hf12)))]
    exact hc2
  have hm2 := migrateOne_eq (getWebappPath basePath) k1
    ({ m with dataSources :=
      [(k1, ⟨ds1.type, ds1.uri, ⟨some (namespacedUri k1 u1), ds1.settings.annotations,
        ds1.settings.odataVersion⟩⟩), (a1, annDs1)] },
      fsWrite (fsDelete fs (getWebappPath basePath ++ ["localService", f1]))
        (getWebappPath basePath ++ ["localService", k1, f1]) c1)
    a1 annDs1 u2 hl2 hu2 (isFlatUri_of_split u2 f2 hsp2)
  rw [e2, e2n, moveFile_eq _ _ _ c2 hc2s] at hm2
  dsimp only at hm2
  have hup2 : upsertAssoc
      [(k1, (⟨ds1.type, ds1.uri, ⟨some (namespacedUri k1 u1), ds1.settings.annotations,
        ds1.settings.odataVersion⟩⟩ : DataSource)), (a1, annDs1)] a1
      (⟨annDs1.type, annDs1.uri, ⟨some (namespacedUri k1 u2), annDs1.settings.annotations,
        annDs1.settings.odataVersion⟩⟩ : DataSource) =
      [(k1, ⟨ds1.type, ds1.uri, ⟨some (namespacedUri k1 u1), ds1.settings.annotations,
        ds1.settings.odataVersion⟩⟩),
        (a1, ⟨annDs1.type, annDs1.uri, ⟨some (namespacedUri k1 u2),
          annDs1.settings.annotations, annDs1.settings.odataVersion⟩⟩)] := by
    simp [upsertAssoc, hk1a1]
  rw [hup2] at hm2
  have hod : odataEntries m = [(k1, ds1)] := by
    unfold odataEntries
    rw [hds]
    simp [List.filter, ht1, ht2]
  unfold migrateFlatLayout
  rw [hod]
  dsimp only
  rw [if_pos (by simp [hk1n2] : (decide (k1 ≠ n2)) = true)]
  rw [hanns1]
  rw [List.foldl_cons, List.foldl_cons, List.foldl_nil]
  rw [hm1, hm2]
  rw [hanns1]

/-- C4: given a manifest holding exactly one OData-typed data source in
flat layout (its localUri and that of its annotation point into
localService/ directly), generate for a second, differently-named service
moves the first services metadata and annotation files into
localService/(firstName)/, rewrites their localUri fields to the
namespaced paths, and writes the second services metadata under
localService/(secondName)/.  Names are assumed slash-free, expressed by
the split hypotheses. -/
theorem claim4_layout_migration (basePath : FsPath) (service : OdataService)
    (fs : Fs) (m : Manifest) (k1 a1 n2 f1 f2 u1 u2 mx : String)
    (ds1 annDs1 : DataSource) (c1 c2 : FileContent)
    (hread : fsRead fs (basePath ++ ["webapp", "manifest.json"]) = some (.manifest m))
    (hid : ¬ (m.appId.getD "" = ""))
    (hpaths : findProjectFiles basePath fs = {})
    (hds : m.dataSources = [(k1, ds1), (a1, annDs1)])
    (ht1 : ds1.type = DSType.odata)
    (ht2 : annDs1.type = DSType.odataAnnot)
    (hanns1 : ds1.settings.annotations = [a1])
    (hu1 : ds1.settings.localUri = some u1)
    (hu2 : annDs1.settings.localUri = some u2)
    (hsp1 : splitSlash u1 = ["localService", f1])
    (hsp2 : splitSlash u2 = ["localService", f2])
    (hspn1 : splitSlash (namespacedUri k1 u1) = ["localService", k1, f1])
    (hspn2 : splitSlash (namespacedUri k1 u2) = ["localService", k1, f2])
    (hc1 : fsRead fs (getWebappPath basePath ++ ["localService", f1]) = some c1)
    (hc2 : fsRead fs (getWebappPath basePath ++ ["localService", f2]) = some c2)
    (hn : service.name = some n2)
    (hk1n2 : k1 ≠ n2) (ha1k1 : a1 ≠ k1) (ha1n2 : a1 ≠ n2) (hf12 : f1 ≠ f2)
    (htype : service.type = ServiceType.edmx)
    (hmeta : service.metadata = some mx)
    (hanns : service.annotations = [])
    (hlocal : service.localAnnotationsName = none) :
    (generate basePath service fs).1 = .ok () ∧
    (∃ m1, fsRead (generate basePath service fs).2 (basePath ++ ["webapp", "manifest.json"]) =
        some (.manifest m1) ∧
      lookupDS m1 k1 = some ⟨ds1.type, ds1.uri,
        ⟨some (namespacedUri k1 u1), ds1.settings.annotations, ds1.settings.odataVersion⟩⟩ ∧
      lookupDS m1 a1 = some ⟨annDs1.type, annDs1.uri,
        ⟨some (namespacedUri k1 u2), annDs1.settings.annotations, annDs1.settings.odataVersion⟩⟩ ∧
      (∃ d2, lookupDS m1 n2 = some d2 ∧
        d2.settings.localUri = some ("localService/" ++ n2 ++ "/metadata.xml"))) ∧
    fsExists (generate basePath service fs).2
      (getWebappPath basePath ++ ["localService", f1]) = false ∧
    fsExists (generate basePath service fs).2
      (getWebappPath basePath ++ ["localService", f2]) = false ∧
    fsRead (generate basePath service fs).2
      (getWebappPath basePath ++ ["localService", k1, f1]) = some c1 ∧
    fsRead (generate basePath service fs).2
      (getWebappPath basePath ++ ["localService", k1, f2]) = some c2 ∧
    fsRead (generate basePath service fs).2
      (getWebappPath basePath ++ ["localService", n2, "metadata.xml"]) =
      some (.text (prettifyXml mx)) := by
  have hro := readManifestOpt_eq basePath fs m hread
  have hEname : (enhanceData basePath service fs).name = some n2 := by
    rw [enhanceData_name, hro, hn]
    rfl
  have heff : effectiveName (enhanceData basePath service fs) = n2 := by
    unfold effectiveName
    rw [hEname]
    rfl
  have hannsE : (enhanceData basePath service fs).annotations = [] := by
    rw [enhanceData_annotations, hanns]
    rfl
  have hmetaE : (enhanceData basePath service fs).metadata = some mx := by
    rw [enhanceData_metadata, hmeta]
  have htypeE : (enhanceData basePath service fs).type = ServiceType.edmx := by
    rw [enhanceData_type, htype]
  have hlocalE : (enhanceData basePath service fs).localAnnotationsName = none := by
    rw [enhanceData_localAnns, hlocal]
  have hmig := c4_migrate_eq basePath fs m k1 a1 n2 f1 f2 u1 u2 ds1 annDs1 c1 c2
    hds ht1 ht2 hanns1 hu1 hu2 hsp1 hsp2 hspn1 hspn2 hc1 hc2 hk1n2 ha1k1 hf12
  have hgen := generate_no_yaml basePath service fs m hread hid hpaths
  have hwa : ∀ g : Fs, writeAnnotationXmlFiles g basePath n2 [] = g := fun _ => rfl
  have hpost : noYamlPostFs basePath (enhanceData basePath service fs) m fs =
      fsWrite
        (fsWrite
          (fsWrite
            (fsDelete (fsWrite (fsDelete fs (getWebappPath basePath ++ ["localService", f1]))
              (getWebappPath basePath ++ ["localService", k1, f1]) c1)
              (getWebappPath basePath ++ ["localService", f2]))
            (getWebappPath basePath ++ ["localService", k1, f2]) c2)
          (basePath ++ ["webapp", "manifest.json"])
          (.manifest (mergedManifest (enhanceData basePath service fs)
            (⟨m.appId,
              [(k1, ⟨ds1.type, ds1.uri,
                ⟨some (namespacedUri k1 u1), ds1.settings.annotations,
                  ds1.settings.odataVersion⟩⟩),
                (a1, ⟨annDs1.type, annDs1.uri,
                  ⟨some (namespacedUri k1 u2), annDs1.settings.annotations,
                    annDs1.settings.odataVersion⟩⟩)],
              m.models⟩ : Manifest))))
        (getWebappPath basePath ++ ["localService", n2, "metadata.xml"])
        (.text (prettifyXml mx)) := by
    unfold noYamlPostFs
    rw [heff, hmig]
    dsimp only
    rw [if_pos htypeE, hmetaE]
    rw [if_pos (show ((some mx : Option String)).isSome = true from rfl)]
    rw [hannsE, hwa]
    unfold writeLocalServiceFiles
    rw [heff, hmetaE, hlocalE]
    rfl
  rw [hgen]
  dsimp only
  rw [hpost]
  constructor
  · rfl
  have hlen_mp : (basePath ++ ["webapp", "manifest.json"] : FsPath).length =
      basePath.length + 2 := by simp [List.length_append]
  have hlen_src : ∀ x, (getWebappPath basePath ++ ["localService", x] : FsPath).length =
      basePath.length + 3 := by
    intro x
    simp [getWebappPath, List.length_append]
  have hlen_dst : ∀ x y, (getWebappPath basePath ++ ["localService", x, y] : FsPath).length =
      basePath.length + 4 := by
    intro x y
    simp [getWebappPath, List.length_append]
  have hne_newp_mp : (getWebappPath basePath ++ ["localService", n2, "metadata.xml"] : FsPath) ≠
      basePath ++ ["webapp", "manifest.json"] := by
    apply ne_of_length_ne
    rw [hlen_dst, hlen_mp]
    omega
  refine ⟨?_, ?_, ?_, ?_, ?_, ?_⟩
  · -- manifest contents
    have hmread : fsRead
        (fsWrite
          (fsWrite
            (fsWrite
              (fsDelete (fsWrite (fsDelete fs (getWebappPath basePath ++ ["localService", f1]))
                (getWebappPath basePath ++ ["localService", k1, f1]) c1)
                (getWebappPath basePath ++ ["localService", f2]))
              (getWebappPath basePath ++ ["localService", k1, f2]) c2)
            (basePath ++ ["webapp", "manifest.json"])
            (.manifest (mergedManifest (enhanceData basePath service fs)
              (⟨m.appId,
                [(k1, ⟨ds1.type, ds1.uri,
                  ⟨some (namespacedUri k1 u1), ds1.settings.annotations,
                    ds1.settings.odataVersion⟩⟩),
                  (a1, ⟨annDs1.type, annDs1.uri,
                    ⟨some (namespacedUri k1 u2), annDs1.settings.annotations,
                      annDs1.settings.odataVersion⟩⟩)],
                m.models⟩ : Manifest))))
          (getWebappPath basePath ++ ["localService", n2, "metadata.xml"])
          (.text (prettifyXml mx)))
        (basePath ++ ["webapp", "manifest.json"]) =
        some (.manifest (mergedManifest (enhanceData basePath service fs)
          (⟨m.appId,
            [(k1, ⟨ds1.type, ds1.uri,
              ⟨some (namespacedUri k1 u1), ds1.settings.annotations,
                ds1.settings.odataVersion⟩⟩),
              (a1, ⟨annDs1.type, annDs1.uri,
                ⟨some (namespacedUri k1 u2), annDs1.settings.annotations,
                  annDs1.settings.odataVersion⟩⟩)],
            m.models⟩ : Manifest))) := by
      rw [fsRead_fsWrite_ne _ _ _ _ (Ne.symm hne_newp_mp)]
      exact fsRead_fsWrite_self _ _ _
    refine ⟨_, hmread, ?_, ?_, ?_⟩
    · -- lookup k1
      unfold mergedManifest
      dsimp only
      rw [heff, hannsE, List.foldl_nil, lookupDS_bindModel]
      rw [lookupDS_upsert_ne _ _ _ _ _ _ hk1n2]
      unfold lookupDS
      simp [List.find?]
    · unfold mergedManifest
      dsimp only
      rw [heff, hannsE, List.foldl_nil, lookupDS_bindModel]
      rw [lookupDS_upsert_ne _ _ _ _ _ _ ha1n2]
      unfold lookupDS
      have hk1a1 : ¬ (k1 = a1) := fun hh => ha1k1 hh.symm
      simp [List.find?, hk1a1]
    · refine ⟨serviceDataSource (enhanceData basePath service fs) n2 none, ?_, ?_⟩
      · unfold mergedManifest
        dsimp only
        rw [heff, hannsE, List.foldl_nil, lookupDS_bindModel]
        rw [lookupDS_upsert_self]
        have hl2 : lookupDS
            (⟨m.appId,
              [(k1, ⟨ds1.type, ds1.uri,
                ⟨some (namespacedUri k1 u1), ds1.settings.annotations,
                  ds1.settings.odataVersion⟩⟩),
                (a1, ⟨annDs1.type, annDs1.uri,
                  ⟨some (namespacedUri k1 u2), annDs1.settings.annotations,
                    annDs1.settings.odataVersion⟩⟩)],
              m.models⟩ : Manifest) n2 = none := by
          unfold lookupDS
          simp [List.find?, hk1n2, ha1n2]
        rw [hl2]
      · unfold serviceDataSource
        dsimp only
        rw [hmetaE]
        rfl
  · -- old flat file 1 gone
    rw [fsExists_fsWrite, fsExists_fsWrite, fsExists_fsWrite, fsExists_fsDelete,
      fsExists_fsWrite, fsExists_fsDelete]
    have hne1 : ¬ ((getWebappPath basePath ++ ["localService", f1] : FsPath) =
        getWebappPath basePath ++ ["localService", k1, f1]) := by
      apply ne_of_length_ne
      rw [hlen_src, hlen_dst]
      omega
    have hne2 : ¬ ((getWebappPath basePath ++ ["localService", f1] : FsPath) =
        getWebappPath basePath ++ ["localService", f2]) :=
      append_ne_of_ne _ _ _ (pair_ne_snd _ _ _ hf12)
    have hne3 : ¬ ((getWebappPath basePath ++ ["localService", f1] : FsPath) =
        getWebappPath basePath ++ ["localService", k1, f2]) := by
      apply ne_of_length_ne
      rw [hlen_src, hlen_dst]
      omega
    have hne4 : ¬ ((getWebappPath basePath ++ ["localService", f1] : FsPath) =
        basePath ++ ["webapp", "manifest.json"]) := by
      apply ne_of_length_ne
      rw [hlen_src, hlen_mp]
      omega
    have hne5 : ¬ ((getWebappPath basePath ++ ["localService", f1] : FsPath) =
        getWebappPath basePath ++ ["localService", n2, "metadata.xml"]) := by
      apply ne_of_length_ne
      rw [hlen_src, hlen_dst]
      omega
    simp [hne1, hne2, hne3, hne4, hne5]
  · -- old flat file 2 gone
    rw [fsExists_fsWrite, fsExists_fsWrite, fsExists_fsWrite, fsExists_fsDelete]
    have hne1 : ¬ ((getWebappPath basePath ++ ["localService", f2] : FsPath) =
        getWebappPath basePath ++ ["localService", k1, f2]) := by
      apply ne_of_length_ne
      rw [hlen_src, hlen_dst]
      omega
    have hne2 : ¬ ((getWebappPath basePath ++ ["localService", f2] : FsPath) =
        basePath ++ ["webapp", "manifest.json"]) := by
      apply ne_of_length_ne
      rw [hlen_src, hlen_mp]
      omega
    have hne3 : ¬ ((getWebappPath basePath ++ ["localService", f2] : FsPath) =
        getWebappPath basePath ++ ["localService", n2, "metadata.xml"]) := by
      apply ne_of_length_ne
      rw [hlen_src, hlen_dst]
      omega
    simp [hne1, hne2, hne3]
  · -- moved file 1 readable
    have hne1 : (getWebappPath basePath ++ ["localService", k1, f1] : FsPath) ≠
        getWebappPath basePath ++ ["localService", n2, "metadata.xml"] :=
      append_ne_of_ne _ _ _ (triple_ne_mid _ _ _ _ _ hk1n2)
    have hne2 : (getWebappPath basePath ++ ["localService", k1, f1] : FsPath) ≠
        basePath ++ ["webapp", "manifest.json"] := by
      apply ne_of_length_ne
      rw [hlen_dst, hlen_mp]
      omega
    have hne3 : (getWebappPath basePath ++ ["localService", k1, f1] : FsPath) ≠
        getWebappPath basePath ++ ["localService", k1, f2] :=
      append_ne_of_ne _ _ _ (triple_ne_last _ _ _ _ hf12)
    have hne4 : (getWebappPath basePath ++ ["localService", k1, f1] : FsPath) ≠
        getWebappPath basePath ++ ["localService", f2] := by
      apply ne_of_length_ne
      rw [hlen_dst, hlen_src]
      omega
    rw [fsRead_fsWrite_ne _ _ _ _ hne1, fsRead_fsWrite_ne _ _ _ _ hne2,
      fsRead_fsWrite_ne _ _ _ _ hne3, fsRead_fsDelete_ne _ _ _ hne4]
    exact fsRead_fsWrite_self _ _ _
  · -- moved file 2 readable
    have hne1 : (getWebappPath basePath ++ ["localService", k1, f2] : FsPath) ≠
        getWebappPath basePath ++ ["localService", n2, "metadata.xml"] :=
      append_ne_of_ne _ _ _ (triple_ne_mid _ _ _ _ _ hk1n2)
    have hne2 : (getWebappPath basePath ++ ["localService", k1, f2] : FsPath) ≠
        basePath ++ ["webapp", "manifest.json"] := by
      apply ne_of_length_ne
      rw [hlen_dst, hlen_mp]
      omega
    rw [fsRead_fsWrite_ne _ _ _ _ hne1, fsRead_fsWrite_ne _ _ _ _ hne2]
    exact fsRead_fsWrite_self _ _ _
  · -- new service metadata written
    exact fsRead_fsWrite_self _ _ _

/-- C4 witness: in the concrete flat-layout project, generating the second
service succeeds, deletes the flat metadata file and re-creates it under
localService/mainService/. -/
theorem claim4_witness :
    (generate ["app"] c4Svc c4Fs).1 = .ok () ∧
    fsExists (generate ["app"] c4Svc c4Fs).2
      (getWebappPath ["app"] ++ ["localService", "metadata.xml"]) = false ∧
    fsRead (generate ["app"] c4Svc c4Fs).2
      (getWebappPath ["app"] ++ ["localService", "mainService", "metadata.xml"]) =
      some (.text "<old metadata/>") := by
  have h := claim4_layout_migration ["app"] c4Svc c4Fs c4Manifest
    "mainService" "SEPMRA_PROD_MAN" "secondService" "metadata.xml" "SEPMRA_PROD_MAN.xml"
    "localService/metadata.xml" "localService/SEPMRA_PROD_MAN.xml" "<edmx-second/>"
    c4Ds1 c4AnnDs1 (.text "<old metadata/>") (.text "<old annfile/>")
    rfl (by decide) rfl rfl rfl rfl rfl rfl rfl rfl rfl rfl rfl rfl rfl
    rfl (by decide) (by decide) (by decide) (by decide) rfl rfl rfl rfl
  exact ⟨h.1, h.2.2.1, h.2.2.2.2.1⟩

/-! ## Round-trip helper lemmas: migration frame and fresh-name deletion -/

theorem map_fst_upsertAssoc {α : Type} [DecidableEq α] (l : List (String × α))
    (k : String) (v : α) (h : l.any (fun e => decide (e.1 = k)) = true) :
    (upsertAssoc l k v).map Prod.fst = l.map Prod.fst := by
  unfold upsertAssoc
  rw [if_pos h, List.map_map]
  apply List.map_congr_left
  intro e _
  by_cases hek : e.1 = k
  · simp [Function.comp, hek]
  · simp [Function.comp, hek]

theorem upsertAssoc_append {α : Type} [DecidableEq α] (l : List (String × α))
    (k : String) (v : α) (h : l.any (fun e => decide (e.1 = k)) = false) :
    upsertAssoc l k v = l ++ [(k, v)] := by
  unfold upsertAssoc
  simp [h]

theorem any_key_true_of_lookupDS (m : Manifest) (k : String) (ds : DataSource)
    (h : lookupDS m k = some ds) :
    m.dataSources.any (fun e => decide (e.1 = k)) = true := by
  unfold lookupDS at h
  cases hf : m.dataSources.find? (fun e => decide (e.1 = k)) with
  | none => rw [hf] at h; cases h
  | some e =>
    have hpred := List.find?_some hf
    exact List.any_eq_true.mpr ⟨e, List.mem_of_find?_eq_some hf, hpred⟩

theorem any_key_false_of_forall {α : Type} (l : List (String × α)) (k : String)
    (h : ∀ e ∈ l, e.1 ≠ k) :
    l.any (fun e => decide (e.1 = k)) = false := by
  simp only [List.any_eq_false, decide_eq_true_eq]
  exact h

theorem lookupDS_none_of_forall (m : Manifest) (k : String)
    (h : ∀ e ∈ m.dataSources, e.1 ≠ k) : lookupDS m k = none := by
  unfold lookupDS
  rw [List.find?_eq_none.mpr (fun e he => by simp [h e he])]
  rfl

theorem forall_fst_ne_of_map_eq {α : Type} (l1 l2 : List (String × α)) (n : String)
    (hmap : l1.map Prod.fst = l2.map Prod.fst) (h : ∀ e ∈ l2, e.1 ≠ n) :
    ∀ e ∈ l1, e.1 ≠ n := by
  intro e he
  have hmem : e.1 ∈ l2.map Prod.fst := by
    rw [← hmap]
    exact List.mem_map_of_mem _ he
  obtain ⟨e2, he2, heq⟩ := List.mem_map.mp hmem
  rw [← heq]
  exact h e2 he2

theorem filter_ne_key_append {α : Type} (l : List (String × α)) (n : String) (v : α)
    (h : ∀ e ∈ l, e.1 ≠ n) :
    (l ++ [(n, v)]).filter (fun e => !(decide (e.1 = n))) = l := by
  rw [List.filter_append]
  have h1 : l.filter (fun e => !(decide (e.1 = n))) = l := by
    apply List.filter_eq_self.mpr
    intro e he
    simp [h e he]
  have h2 : ([(n, v)] : List (String × α)).filter (fun e => !(decide (e.1 = n))) = [] := by
    simp [List.filter]
  rw [h1, h2, List.append_nil]

theorem filter_ne_val_append (l : List (String × String)) (n k : String)
    (h : ∀ e ∈ l, e.2 ≠ n) :
    (l ++ [(k, n)]).filter (fun e => !(decide (e.2 = n))) = l := by
  rw [List.filter_append]
  have h1 : l.filter (fun e => !(decide (e.2 = n))) = l := by
    apply List.filter_eq_self.mpr
    intro e he
    simp [h e he]
  have h2 : ([(k, n)] : List (String × String)).filter (fun e => !(decide (e.2 = n))) = [] := by
    simp [List.filter]
  rw [h1, h2, List.append_nil]

theorem migrateOne_frame (w : FsPath) (sk : String) (st : Manifest × Fs) (k : String) :
    (migrateOne w sk st k).1.dataSources.map Prod.fst = st.1.dataSources.map Prod.fst ∧
    (migrateOne w sk st k).1.models = st.1.models := by
  unfold migrateOne
  dsimp only
  cases hl : lookupDS st.1 k with
  | none => exact ⟨rfl, rfl⟩
  | some ds =>
    dsimp only
    cases hu : ds.settings.localUri with
    | none => exact ⟨rfl, rfl⟩
    | some u =>
      dsimp only
      by_cases hf : isFlatUri u = true
      · rw [if_pos hf]
        refine ⟨?_, rfl⟩
        dsimp only
        exact map_fst_upsertAssoc _ _ _ (any_key_true_of_lookupDS _ _ _ hl)
      · rw [if_neg hf]
        exact ⟨rfl, rfl⟩

theorem migrateFold_frame (w : FsPath) (sk : String) (ks : List String) :
    ∀ st : Manifest × Fs,
    (ks.foldl (migrateOne w sk) st).1.dataSources.map Prod.fst =
      st.1.dataSources.map Prod.fst ∧
    (ks.foldl (migrateOne w sk) st).1.models = st.1.models := by
  induction ks with
  | nil => intro st; exact ⟨rfl, rfl⟩
  | cons k ks ih =>
    intro st
    rw [List.foldl_cons]
    have h1 := migrateOne_frame w sk st k
    have h2 := ih (migrateOne w sk st k)
    exact ⟨h2.1.trans h1.1, h2.2.trans h1.2⟩

theorem migrateFlatLayout_frame (w : FsPath) (n : String) (m : Manifest) (fs : Fs) :
    (migrateFlatLayout w n m fs).1.dataSources.map Prod.fst =
      m.dataSources.map Prod.fst ∧
    (migrateFlatLayout w n m fs).1.models = m.models := by
  unfold migrateFlatLayout
  cases ho : odataEntries m with
  | nil => exact ⟨rfl, rfl⟩
  | cons e es =>
    cases es with
    | nil =>
      obtain ⟨k, ds⟩ := e
      dsimp only
      by_cases hk : decide (k ≠ n) = true
      · rw [if_pos hk]
        exact migrateFold_frame w k (k :: ds.settings.annotations) (m, fs)
      · rw [if_neg hk]
        exact ⟨rfl, rfl⟩
    | cons e2 es2 => exact ⟨rfl, rfl⟩

theorem fsExists_fsWrite_of_ne (fs : Fs) (p q : FsPath) (c : FileContent)
    (h : q ≠ p) : fsExists (fsWrite fs p c) q = fsExists fs q := by
  rw [fsExists_fsWrite]
  simp [h]

theorem fsExists_fsDelete_of_ne (fs : Fs) (p q : FsPath) (h : q ≠ p) :
    fsExists (fsDelete fs p) q = fsExists fs q := by
  rw [fsExists_fsDelete]
  simp [h]

theorem fsExists_moveFile_of_ne (fs : Fs) (src dst q : FsPath)
    (h1 : q ≠ src) (h2 : q ≠ dst) :
    fsExists (moveFile fs src dst) q = fsExists fs q := by
  unfold moveFile
  cases hr : fsRead fs src with
  | none => rfl
  | some c =>
    rw [fsExists_fsWrite_of_ne _ _ _ _ h2, fsExists_fsDelete_of_ne _ _ _ h1]

theorem fsExists_migrateOne_short (bp : FsPath) (sk : String) (st : Manifest × Fs)
    (k : String) (q : FsPath) (hq : q.length ≤ bp.length + 1) :
    fsExists (migrateOne (getWebappPath bp) sk st k).2 q = fsExists st.2 q := by
  have hlong : ∀ u : String, q ≠ uriToPath (getWebappPath bp) u := by
    intro u
    apply uriToPath_long
    have hw : (getWebappPath bp).length = bp.length + 1 := by
      simp [getWebappPath]
    omega
  unfold migrateOne
  dsimp only
  cases hl : lookupDS st.1 k with
  | none => rfl
  | some ds =>
    dsimp only
    cases hu : ds.settings.localUri with
    | none => rfl
    | some u =>
      dsimp only
      by_cases hf : isFlatUri u = true
      · rw [if_pos hf]
        dsimp only
        exact fsExists_moveFile_of_ne _ _ _ _ (hlong u) (hlong _)
      · rw [if_neg hf]

theorem fsExists_migrateFold_short (bp : FsPath) (sk : String) (ks : List String) :
    ∀ (st : Manifest × Fs) (q : FsPath), q.length ≤ bp.length + 1 →
    fsExists (ks.foldl (migrateOne (getWebappPath bp) sk) st).2 q = fsExists st.2 q := by
  induction ks with
  | nil => intro st q hq; rfl
  | cons k ks ih =>
    intro st q hq
    rw [List.foldl_cons]
    exact (ih (migrateOne (getWebappPath bp) sk st k) q hq).trans
      (fsExists_migrateOne_short bp sk st k q hq)

theorem fsExists_migrateFlatLayout_short (bp : FsPath) (n : String) (m : Manifest)
    (fs : Fs) (q : FsPath) (hq : q.length ≤ bp.length + 1) :
    fsExists (migrateFlatLayout (getWebappPath bp) n m fs).2 q = fsExists fs q := by
  unfold migrateFlatLayout
  cases ho : odataEntries m with
  | nil => rfl
  | cons e es =>
    cases es with
    | nil =>
      obtain ⟨k, ds⟩ := e
      dsimp only
      by_cases hk : decide (k ≠ n) = true
      · rw [if_pos hk]
        exact fsExists_migrateFold_short bp k (k :: ds.settings.annotations) (m, fs) q hq
      · rw [if_neg hk]
    | cons e2 es2 => rfl

theorem closestHitAux_congr (fs1 fs2 : Fs) (name : String) (fuel : Nat) :
    ∀ parts : List String,
    (∀ q : FsPath, q.length ≤ parts.length + 1 → fsExists fs1 q = fsExists fs2 q) →
    closestHitAux fs1 fuel parts name = closestHitAux fs2 fuel parts name := by
  induction fuel with
  | zero => intro parts h; rfl
  | succ fuel ih =>
    intro parts h
    cases parts with
    | nil => rfl
    | cons p ps =>
      unfold closestHitAux
      rw [h ((p :: ps) ++ [name]) (by simp)]
      by_cases he : fsExists fs2 ((p :: ps) ++ [name]) = true
      · rw [if_pos he, if_pos he]
      · rw [if_neg he, if_neg he]
        apply ih
        intro q hq
        apply h
        have hd : (p :: ps).dropLast.length + 1 = (p :: ps).length := by
          rw [List.length_dropLast]
          simp
        omega

theorem findProjectFiles_congr (bp : FsPath) (fs1 fs2 : Fs)
    (h : ∀ q : FsPath, q.length ≤ bp.length + 1 → fsExists fs1 q = fsExists fs2 q) :
    findProjectFiles bp fs1 = findProjectFiles bp fs2 := by
  rw [findProjectFiles_eq_closestHits, findProjectFiles_eq_closestHits]
  unfold closestHit
  rw [closestHitAux_congr fs1 fs2 "package.json" bp.length bp h,
    closestHitAux_congr fs1 fs2 "ui5.yaml" bp.length bp h,
    closestHitAux_congr fs1 fs2 "ui5-local.yaml" bp.length bp h,
    closestHitAux_congr fs1 fs2 "ui5-mock.yaml" bp.length bp h]

theorem mergedManifest_ds_of_no_anns (s : OdataService) (m : Manifest)
    (h : s.annotations = []) :
    (mergedManifest s m).dataSources =
      upsertAssoc m.dataSources (effectiveName s)
        (serviceDataSource s (effectiveName s) (lookupDS m (effectiveName s))) := by
  unfold mergedManifest bindModel
  dsimp only
  rw [h, List.foldl_nil]
  split
  · split
    · rfl
    · rfl
  · rfl

theorem mergedManifest_models_of_none (s : OdataService) (m : Manifest)
    (h : s.annotations = [])
    (hfind : m.models.find? (fun e => decide (e.1 = s.model.getD "")) = none) :
    (mergedManifest s m).models = m.models ++ [(s.model.getD "", effectiveName s)] := by
  unfold mergedManifest bindModel
  dsimp only
  rw [h, List.foldl_nil, hfind]

theorem deleteServiceFromManifest_fresh (bp : FsPath) (n mk0 : String) (fs : Fs)
    (aid : Option String) (l : List (String × DataSource))
    (mo : List (String × String)) (v : DataSource)
    (hread : fsRead fs (getWebappPath bp ++ ["manifest.json"]) =
      some (.manifest ⟨aid, l ++ [(n, v)], mo ++ [(mk0, n)]⟩))
    (hl : ∀ e ∈ l, e.1 ≠ n)
    (hv : v.settings.annotations = [])
    (hmo : ∀ e ∈ mo, e.2 ≠ n) :
    deleteServiceFromManifest bp n fs =
      fsWrite fs (getWebappPath bp ++ ["manifest.json"])
        (.manifest ⟨aid, l, mo⟩) := by
  have hlk : lookupDS (⟨aid, l ++ [(n, v)], mo ++ [(mk0, n)]⟩ : Manifest) n = some v := by
    unfold lookupDS
    dsimp only
    rw [List.find?_append]
    rw [List.find?_eq_none.mpr (fun e he => by simp [hl e he])]
    rw [List.find?_cons_of_pos _ (by simp)]
    rfl
  unfold deleteServiceFromManifest
  dsimp only
  rw [hread]
  dsimp only
  rw [hlk]
  dsimp only
  rw [filter_ne_key_append _ _ _ hl]
  rw [hv]
  simp only [List.any_nil, Bool.false_and, Bool.not_false, List.filter_true]
  rw [filter_ne_val_append _ _ _ hmo]

/-- C3 counterexample: generate followed by remove with the same descriptor
does not restore the data-source table when the descriptor reuses an
existing service name.  In the concrete project the existing mainService
entry is already namespaced, so the migration changes nothing, yet after
the round trip the table is empty instead of holding the original entry. -/
theorem claim3_counterexample :
    (remove ["app"] c3CollSvc (generate ["app"] c3CollSvc c3Fs).2).1 = .ok () ∧
    (migrateFlatLayout (getWebappPath ["app"]) "mainService" c3Manifest c3Fs).1.dataSources =
      c3Manifest.dataSources ∧
    fsRead (remove ["app"] c3CollSvc (generate ["app"] c3CollSvc c3Fs).2).2
      ["app", "webapp", "manifest.json"] =
      some (.manifest ⟨some "c3app", [], []⟩) ∧
    c3Manifest.dataSources ≠ [] := by
  exact ⟨rfl, rfl, rfl, by decide⟩

theorem remove_fresh_on_post (basePath : FsPath) (service : OdataService)
    (post : Fs) (n mk0 : String) (aid : Option String)
    (l : List (String × DataSource)) (mo : List (String × String)) (v : DataSource)
    (hn : service.name = some n)
    (htype : service.type = ServiceType.edmx)
    (hanns : service.annotations = [])
    (hfind : findProjectFiles basePath post = {})
    (hreadlit : fsRead post (getWebappPath basePath ++ ["manifest.json"]) =
      some (.manifest ⟨aid, l ++ [(n, v)], mo ++ [(mk0, n)]⟩))
    (hl : ∀ e ∈ l, e.1 ≠ n)
    (hv : v.settings.annotations = [])
    (hmo : ∀ e ∈ mo, e.2 ≠ n) :
    remove basePath service post =
      (.ok (), fsWrite post (getWebappPath basePath ++ ["manifest.json"])
        (.manifest ⟨aid, l, mo⟩)) := by
  have heffsvc : effectiveName service = n := by
    unfold effectiveName
    rw [hn]
    rfl
  have hdel := deleteServiceFromManifest_fresh basePath n mk0 post aid l mo v
    hreadlit hl hv hmo
  unfold remove
  dsimp only
  rw [heffsvc, hfind]
  rw [if_pos htype]
  dsimp only
  rw [hanns, hdel]
  rfl

/-- C3: the round trip holds under freshness - on a project without YAML
configs or package.json, for an EDMX descriptor with an explicit name and
model key, no annotations and no local annotation template (metadata live
or absent), whose name is absent from the data-source table, not bound by
any model, and whose model key is unused, generate followed by remove with
the same descriptor restores the manifest data-source table to its state
after the one-way flat-to-namespaced migration (which is not reversed) and
the model bindings to exactly their pre-generate state. -/
theorem claim3_round_trip_fresh (basePath : FsPath) (service : OdataService)
    (fs : Fs) (m : Manifest) (n mk0 : String)
    (hread : fsRead fs (basePath ++ ["webapp", "manifest.json"]) = some (.manifest m))
    (hid : ¬ (m.appId.getD "" = ""))
    (hpaths : findProjectFiles basePath fs = {})
    (hn : service.name = some n)
    (hmodel : service.model = some mk0)
    (htype : service.type = ServiceType.edmx)
    (hanns : service.annotations = [])
    (hlocal : service.localAnnotationsName = none)
    (hkfresh : ∀ e ∈ m.dataSources, e.1 ≠ n)
    (hmodfresh : ∀ e ∈ m.models, e.2 ≠ n)
    (hmk : ∀ e ∈ m.models, e.1 ≠ mk0) :
    (remove basePath service (generate basePath service fs).2).1 = .ok () ∧
    ∃ m2, fsRead (remove basePath service (generate basePath service fs).2).2
        (basePath ++ ["webapp", "manifest.json"]) = some (.manifest m2) ∧
      m2.dataSources =
        (migrateFlatLayout (getWebappPath basePath) n m fs).1.dataSources ∧
      m2.models = m.models := by
  have hro := readManifestOpt_eq basePath fs m hread
  have hEname : (enhanceData basePath service fs).name = some n := by
    rw [enhanceData_name, hro, hn]
    rfl
  have heff : effectiveName (enhanceData basePath service fs) = n := by
    unfold effectiveName
    rw [hEname]
    rfl
  have hannsE : (enhanceData basePath service fs).annotations = [] := by
    rw [enhanceData_annotations, hanns]
    rfl
  have htypeE : (enhanceData basePath service fs).type = ServiceType.edmx := by
    rw [enhanceData_type, htype]
  have hlocalE : (enhanceData basePath service fs).localAnnotationsName = none := by
    rw [enhanceData_localAnns, hlocal]
  have hmodelE : (enhanceData basePath service fs).model = some mk0 := by
    rw [enhanceData_model, hmodel]
    rfl
  have hgen := generate_no_yaml basePath service fs m hread hid hpaths
  have hwa : ∀ g : Fs, writeAnnotationXmlFiles g basePath n [] = g := fun _ => rfl
  have hlen_mp : (basePath ++ ["webapp", "manifest.json"] : FsPath).length =
      basePath.length + 2 := by simp [List.length_append]
  have hmpeq : getWebappPath basePath ++ ["manifest.json"] =
      basePath ++ ["webapp", "manifest.json"] := by
    simp [getWebappPath]
  have hframe := migrateFlatLayout_frame (getWebappPath basePath) n m fs
  have hkfresh2 : ∀ e ∈ (migrateFlatLayout (getWebappPath basePath) n m fs).1.dataSources,
      e.1 ≠ n :=
    forall_fst_ne_of_map_eq _ _ _ hframe.1 hkfresh
  have hlkM2 : lookupDS (migrateFlatLayout (getWebappPath basePath) n m fs).1 n = none :=
    lookupDS_none_of_forall _ _ hkfresh2
  have hMMds : (mergedManifest (enhanceData basePath service fs)
      (migrateFlatLayout (getWebappPath basePath) n m fs).1).dataSources =
      (migrateFlatLayout (getWebappPath basePath) n m fs).1.dataSources ++
        [(n, serviceDataSource (enhanceData basePath service fs) n none)] := by
    rw [mergedManifest_ds_of_no_anns _ _ hannsE, heff, hlkM2]
    exact upsertAssoc_append _ _ _ (any_key_false_of_forall _ _ hkfresh2)
  have hvann : (serviceDataSource (enhanceData basePath service fs) n
      none).settings.annotations = [] := by
    simp [serviceDataSource, hannsE]
  have hfind : (migrateFlatLayout (getWebappPath basePath) n m fs).1.models.find?
      (fun e => decide (e.1 = (enhanceData basePath service fs).model.getD "")) = none := by
    rw [hmodelE, hframe.2]
    apply List.find?_eq_none.mpr
    intro e he
    simp [hmk e he]
  have hMMmodels : (mergedManifest (enhanceData basePath service fs)
      (migrateFlatLayout (getWebappPath basePath) n m fs).1).models =
      m.models ++ [(mk0, n)] := by
    rw [mergedManifest_models_of_none _ _ hannsE hfind, heff, hmodelE, hframe.2]
    rfl
  have hkey : fsRead (noYamlPostFs basePath (enhanceData basePath service fs) m fs)
      (basePath ++ ["webapp", "manifest.json"]) =
      some (.manifest (mergedManifest (enhanceData basePath service fs)
        (migrateFlatLayout (getWebappPath basePath) n m fs).1)) ∧
      ∀ q : FsPath, q.length ≤ basePath.length + 1 →
        fsExists (noYamlPostFs basePath (enhanceData basePath service fs) m fs) q =
          fsExists fs q := by
    cases hm : service.metadata with
    | none =>
      have hmetaE : (enhanceData basePath service fs).metadata = none := by
        rw [enhanceData_metadata, hm]
      have hpost : noYamlPostFs basePath (enhanceData basePath service fs) m fs =
          fsWrite (migrateFlatLayout (getWebappPath basePath) n m fs).2
            (basePath ++ ["webapp", "manifest.json"])
            (.manifest (mergedManifest (enhanceData basePath service fs)
              (migrateFlatLayout (getWebappPath basePath) n m fs).1)) := by
        unfold noYamlPostFs
        rw [heff]
        dsimp only
        rw [if_pos htypeE, hmetaE]
        rw [if_neg (show ¬ (((none : Option String)).isSome = true) by simp)]
        rw [hannsE, hwa]
      constructor
      · rw [hpost]
        exact fsRead_fsWrite_self _ _ _
      · intro q hq
        rw [hpost]
        rw [fsExists_fsWrite_of_ne _ _ _ _ (by
          apply ne_of_length_ne
          rw [hlen_mp]
          omega)]
        exact fsExists_migrateFlatLayout_short basePath n m fs q hq
    | some mx =>
      have hmetaE : (enhanceData basePath service fs).metadata = some mx := by
        rw [enhanceData_metadata, hm]
      have hlen_newp : (getWebappPath basePath ++ ["localService", n, "metadata.xml"] :
          FsPath).length = basePath.length + 4 := by
        simp [getWebappPath, List.length_append]
      have hne_newp_mp : (basePath ++ ["webapp", "manifest.json"] : FsPath) ≠
          getWebappPath basePath ++ ["localService", n, "metadata.xml"] := by
        apply ne_of_length_ne
        rw [hlen_mp, hlen_newp]
        omega
      have hpost : noYamlPostFs basePath (enhanceData basePath service fs) m fs =
          fsWrite
            (fsWrite (migrateFlatLayout (getWebappPath basePath) n m fs).2
              (basePath ++ ["webapp", "manifest.json"])
              (.manifest (mergedManifest (enhanceData basePath service fs)
                (migrateFlatLayout (getWebappPath basePath) n m fs).1)))
            (getWebappPath basePath ++ ["localService", n, "metadata.xml"])
            (.text (prettifyXml mx)) := by
        unfold noYamlPostFs
        rw [heff]
        dsimp only
        rw [if_pos htypeE, hmetaE]
        rw [if_pos (show ((some mx : Option String)).isSome = true from rfl)]
        rw [hannsE, hwa]
        unfold writeLocalServiceFiles
        rw [heff, hmetaE, hlocalE]
        rfl
      constructor
      · rw [hpost, fsRead_fsWrite_ne _ _ _ _ hne_newp_mp]
        exact fsRead_fsWrite_self _ _ _
      · intro q hq
        rw [hpost]
        rw [fsExists_fsWrite_of_ne _ _ _ _ (by
          apply ne_of_length_ne
          rw [hlen_newp]
          omega)]
        rw [fsExists_fsWrite_of_ne _ _ _ _ (by
          apply ne_of_length_ne
          rw [hlen_mp]
          omega)]
        exact fsExists_migrateFlatLayout_short basePath n m fs q hq
  obtain ⟨hreadMM, hshort⟩ := hkey
  have hreadlit : fsRead (noYamlPostFs basePath (enhanceData basePath service fs) m fs)
      (getWebappPath basePath ++ ["manifest.json"]) =
      some (.manifest ⟨(mergedManifest (enhanceData basePath service fs)
          (migrateFlatLayout (getWebappPath basePath) n m fs).1).appId,
        (migrateFlatLayout (getWebappPath basePath) n m fs).1.dataSources ++
          [(n, serviceDataSource (enhanceData basePath service fs) n none)],
        m.models ++ [(mk0, n)]⟩) := by
    rw [hmpeq, hreadMM, ← hMMds, ← hMMmodels]
  have hfind2 : findProjectFiles basePath
      (noYamlPostFs basePath (enhanceData basePath service fs) m fs) = {} :=
    (findProjectFiles_congr basePath _ fs hshort).trans hpaths
  have hrem := remove_fresh_on_post basePath service
    (noYamlPostFs basePath (enhanceData basePath service fs) m fs) n mk0
    (mergedManifest (enhanceData basePath service fs)
      (migrateFlatLayout (getWebappPath basePath) n m fs).1).appId
    (migrateFlatLayout (getWebappPath basePath) n m fs).1.dataSources
    m.models
    (serviceDataSource (enhanceData basePath service fs) n none)
    hn htype hanns hfind2 hreadlit hkfresh2 hvann hmodfresh
  rw [hgen]
  dsimp only
  rw [hrem]
  dsimp only
  refine ⟨rfl, ⟨(mergedManifest (enhanceData basePath service fs)
      (migrateFlatLayout (getWebappPath basePath) n m fs).1).appId,
    (migrateFlatLayout (getWebappPath basePath) n m fs).1.dataSources, m.models⟩,
    ?_, rfl, rfl⟩
  rw [hmpeq]
  exact fsRead_fsWrite_self _ _ _

/-- C3 witness: on the concrete one-service project, generating and then
removing the fresh secondService restores the data-source table (the
migration is a no-op there) and the model bindings. -/
theorem claim3_witness :
    (remove ["app"] c3FreshSvc (generate ["app"] c3FreshSvc c3Fs).2).1 = .ok () ∧
    ∃ m2, fsRead (remove ["app"] c3FreshSvc (generate ["app"] c3FreshSvc c3Fs).2).2
        (["app", "webapp", "manifest.json"]) = some (.manifest m2) ∧
      m2.dataSources =
        (migrateFlatLayout (getWebappPath ["app"]) "secondService"
          c3Manifest c3Fs).1.dataSources ∧
      m2.models = c3Manifest.models := by
  exact claim3_round_trip_fresh ["app"] c3FreshSvc c3Fs c3Manifest "secondService" "sec"
    rfl (by decide) rfl rfl rfl rfl rfl rfl
    (by decide) (by decide) (by decide)

/-! ## Claim C2 -/

theorem mergedManifest_appId_of_no_anns (s : OdataService) (m : Manifest)
    (h : s.annotations = []) :
    (mergedManifest s m).appId = m.appId := by
  unfold mergedManifest bindModel
  dsimp only
  rw [h, List.foldl_nil]
  split
  · split
    · rfl
    · rfl
  · rfl

theorem lookupDS_of_ds_append (M : Manifest) (l : List (String × DataSource))
    (n : String) (v : DataSource) (hds : M.dataSources = l ++ [(n, v)])
    (hl : ∀ e ∈ l, e.1 ≠ n) :
    lookupDS M n = some v := by
  unfold lookupDS
  rw [hds, List.find?_append, List.find?_eq_none.mpr (fun e he => by simp [hl e he])]
  rw [List.find?_cons_of_pos _ (by simp)]
  rfl

theorem migrateFlatLayout_noop (w : FsPath) (n : String) (M : Manifest) (fs0 : Fs)
    (l0 : List (String × DataSource)) (v : DataSource)
    (h : odataEntries M = l0 ++ [(n, v)]) :
    migrateFlatLayout w n M fs0 = (M, fs0) := by
  unfold migrateFlatLayout
  rw [h]
  cases l0 with
  | nil =>
    rw [List.nil_append]
    dsimp only
    rw [if_neg (by simp)]
  | cons e es =>
    rw [List.cons_append]
    cases hc : es ++ [(n, v)] with
    | nil => exact absurd hc (by simp)
    | cons e2 es2 => rfl

theorem upsertAssoc_same {α : Type} [DecidableEq α] (l : List (String × α))
    (n : String) (v : α) (h : ∀ e ∈ l, e.1 ≠ n) :
    upsertAssoc (l ++ [(n, v)]) n v = l ++ [(n, v)] := by
  unfold upsertAssoc
  rw [if_pos (by
    rw [List.any_append]
    simp)]
  rw [List.map_append]
  have hmap : l.map (fun e => if e.1 = n then (n, v) else e) = l := by
    conv_rhs => rw [← List.map_id l]
    apply List.map_congr_left
    intro e he
    simp [h e he]
  rw [hmap]
  congr 1
  simp

theorem serviceDataSource_prev_anns_nil (s : OdataService) (n : String)
    (v : DataSource) (hv : v.settings.annotations = []) :
    serviceDataSource s n (some v) = serviceDataSource s n none := by
  unfold serviceDataSource
  dsimp only
  rw [hv]

theorem mergedManifest_idem (s : OdataService) (M : Manifest) (n mk0 : String)
    (l : List (String × DataSource))
    (heffs : effectiveName s = n)
    (hanns : s.annotations = [])
    (hmod : s.model = some mk0)
    (hds : M.dataSources = l ++ [(n, serviceDataSource s n none)])
    (hl : ∀ e ∈ l, e.1 ≠ n)
    (hvann : (serviceDataSource s n none).settings.annotations = [])
    (hmo : ∃ mo, M.models = mo ++ [(mk0, n)] ∧ ∀ e ∈ mo, e.1 ≠ mk0) :
    mergedManifest s M = M := by
  obtain ⟨mo, hms, hmk⟩ := hmo
  have hlk : lookupDS M n = some (serviceDataSource s n none) :=
    lookupDS_of_ds_append _ _ _ _ hds hl
  have hds2 : (mergedManifest s M).dataSources = M.dataSources := by
    rw [mergedManifest_ds_of_no_anns _ _ hanns, heffs, hlk,
      serviceDataSource_prev_anns_nil _ _ _ hvann, hds]
    exact upsertAssoc_same _ _ _ hl
  have happ2 : (mergedManifest s M).appId = M.appId :=
    mergedManifest_appId_of_no_anns _ _ hanns
  have hmodels2 : (mergedManifest s M).models = M.models := by
    unfold mergedManifest bindModel
    dsimp only
    rw [hanns, List.foldl_nil]
    dsimp only
    have hfindM : M.models.find? (fun e => decide (e.1 = s.model.getD "")) =
        some (mk0, n) := by
      rw [hmod, hms]
      rw [List.find?_append, List.find?_eq_none.mpr (fun e he => by simp [hmk e he])]
      rw [List.find?_cons_of_pos _ (by simp)]
      rfl
    rw [hfindM]
    dsimp only
    rw [heffs]
    rw [if_pos (by simp : decide (n = n) = true)]
  calc mergedManifest s M
      = ⟨(mergedManifest s M).appId, (mergedManifest s M).dataSources,
          (mergedManifest s M).models⟩ := rfl
    _ = ⟨M.appId, M.dataSources, M.models⟩ := by rw [happ2, hds2, hmodels2]
    _ = M := rfl

end OdataServiceWriter
